import Mathlib

/-!
# rocSOLVER: the block-reflector applicator `larfb`

A shallow embedding of `library/src/auxiliary/rocauxiliary_larfb.hpp` (the two
device kernels `copymatA1` / `addmatA1` and the host routine
`rocsolver_larfb_template`) and of the acceptance rule of the batched LU tests
in `clients/gtest/getf2_getrf_batched_gtest.cpp`.

Conventions of the embedding.

* Element type: an arbitrary commutative ring `R` (exact arithmetic).
* `rocsolver_int` values are unbounded integers (`Int`); 32-bit wrap-around is
  not modelled.
* A device buffer is a function `Int → R` from element offsets to contents; a
  pointer into a buffer is an offset.  The buffers behind `V`, `F`, `A` and the
  workspace are distinct allocations.  Only the strided addressing mode (the
  build without the `batched` preprocessor symbol) is modelled.
* A kernel launch runs its threads one after the other in index order.
* The allocator is driven by `mallocOk`: call number `i` of `hipMalloc`
  succeeds iff `mallocOk i`.  A pointer left unset by a failed allocation is
  `none`; an operation handed such a pointer sets `Device.fault`, after which
  the buffer contents recorded in the state carry no meaning.
-/

set_option linter.unusedSectionVars false
set_option linter.unusedVariables false

namespace RocSolver

/-! ## Enumerations -/

/-- Modelled from the spec: the declaration of `rocblas_status` is not part of
the sources at hand; section 3 lists the closed status enumeration returned by
every operation. -/
inductive rocblas_status
  | success
  | invalid_handle
  | invalid_size
  | memory_error
  | not_implemented
  | internal_error
  deriving DecidableEq, Repr

/-- Modelled from the spec: the side from which the block reflector is applied
(`rocblas_side_left`, and any other value, which the routine treats as right). -/
inductive rocsolver_side
  | left
  | right
  deriving DecidableEq, Repr

/-- Modelled from the spec: the transpose flag of an operand. -/
inductive rocsolver_operation
  | none
  | transpose
  deriving DecidableEq, Repr

/-- Modelled from the spec: the accumulation direction of the Householder
sequence (`rocsolver_backward_direction`, and any other value, which the routine
treats as forward). -/
inductive rocsolver_direct
  | forward
  | backward
  deriving DecidableEq, Repr

/-- Modelled from the spec: which triangle of a triangular operand is referenced. -/
inductive rocsolver_fill
  | upper
  | lower
  deriving DecidableEq, Repr

/-- Modelled from the spec: whether the diagonal of a triangular operand is
taken as 1. -/
inductive rocblas_diagonal
  | non_unit
  | unit
  deriving DecidableEq, Repr

/-- The two device kernels of the routine. -/
inductive Kernel
  | copymatA1
  | addmatA1
  deriving DecidableEq, Repr

/-- One operation issued to the device runtime or to the BLAS layer. -/
inductive DeviceOp
  | hipMalloc (elems : Int)
  | hipMemcpy
  | hipFree
  | launch (kernel : Kernel) (gx gy gz : Int)
  | trmm (b : Nat)
  | gemm (b : Nat)
  deriving DecidableEq, Repr

/-- Kernel launches and BLAS calls, as opposed to allocation, copy and free. -/
def DeviceOp.isCompute : DeviceOp → Bool
  | .launch _ _ _ _ => true
  | .trmm _ => true
  | .gemm _ => true
  | _ => false

/-! ## Addressing -/

/-- Modelled from the spec: the `idx2D` helper of `helpers.h` is not part of the
sources at hand; column-major storage with leading dimension `lda` puts entry
`(i, j)` at offset `j * lda + i`. -/
def idx2D (i j lda : Int) : Int := j * lda + i

/-- Modelled from the spec: `load_ptr_batch` of `common_device.hpp` is not part
of the sources at hand; in strided mode instance `b` starts at
`base + b * stride`, moved by the `shift` of the sub-block. -/
def load_ptr_batch (shiftA : Int) (b : Nat) (strideA : Int) : Int :=
  (b : Int) * strideA + shiftA

/-- A counted loop `for (int i = 0; i < n; ++i) body`. -/
def forLoop {σ : Type} : Nat → (Nat → σ → σ) → σ → σ
  | 0, _, s => s
  | n + 1, body, s => body n (forLoop n body s)

section Numeric

variable {R : Type} [CommRing R]

/-- A single store `p[idx] = v`. -/
def store (p : Int → R) (idx : Int) (v : R) : Int → R :=
  fun x => if x = idx then v else p x

/-! ## The device kernels -/

/-- Thread `(b, j, i)` of kernel `copymatA1`: `Wp[i + j*ldw] = Ap[i + j*lda]`
under the guard `i < ldw && j < order`.  Returns the workspace. -/
def copymatA1 (ldw order : Int) (A : Int → R) (shiftA lda strideA : Int)
    (work : Int → R) (b j i : Nat) : Int → R :=
  let strideW := ldw * order
  if (i : Int) < ldw ∧ (j : Int) < order then
    let Wp := (b : Int) * strideW
    let Ap := load_ptr_batch shiftA b strideA
    store work (Wp + ((i : Int) + (j : Int) * ldw)) (A (Ap + ((i : Int) + (j : Int) * lda)))
  else work

/-- Thread `(b, j, i)` of kernel `addmatA1`: `Ap[i + j*lda] -= Wp[i + j*ldw]`
under the guard `i < ldw && j < order`.  Returns the buffer of `A`. -/
def addmatA1 (ldw order : Int) (A : Int → R) (shiftA lda strideA : Int)
    (work : Int → R) (b j i : Nat) : Int → R :=
  let strideW := ldw * order
  if (i : Int) < ldw ∧ (j : Int) < order then
    let Wp := (b : Int) * strideW
    let Ap := load_ptr_batch shiftA b strideA
    store A (Ap + ((i : Int) + (j : Int) * lda))
      (A (Ap + ((i : Int) + (j : Int) * lda)) - work (Wp + ((i : Int) + (j : Int) * ldw)))
  else A

/-- A launch `hipLaunchKernelGGL(kernel, dim3(gx,gy,gz), dim3(bx,bdy), ...)`: the
thread with `hipBlockIdx_z = b`, global x index `j < gx*bx` and global y index
`i < gy*bdy` runs `thread b j i`. -/
def hipLaunchKernelGGL {σ : Type} (gx gy gz bx bdy : Int) (thread : Nat → Nat → Nat → σ → σ)
    (s : σ) : σ :=
  forLoop gz.toNat (fun b s =>
    forLoop (gx * bx).toNat (fun j s =>
      forLoop (gy * bdy).toNat (fun i s => thread b j i s) s) s) s

/-! ## The Level-3 BLAS primitives -/

/-- Entry `(i, l)` of the triangular operand stored at `A + offA` with leading
dimension `lda`: the other triangle is not referenced and counts as 0, a unit
diagonal is not referenced and counts as 1. -/
def triEntry (uplo : rocsolver_fill) (diag : rocblas_diagonal) (A : Int → R) (offA lda : Int)
    (i l : Nat) : R :=
  if i = l then
    match diag with
    | .unit => 1
    | .non_unit => A (offA + ((i : Int) + (l : Int) * lda))
  else
    match uplo with
    | .lower => if l < i then A (offA + ((i : Int) + (l : Int) * lda)) else 0
    | .upper => if i < l then A (offA + ((i : Int) + (l : Int) * lda)) else 0

/-- Entry `(i, l)` of `op(E)`. -/
def opEntry (trans : rocsolver_operation) (e : Nat → Nat → R) (i l : Nat) : R :=
  match trans with
  | .none => e i l
  | .transpose => e l i

/-- The column-major block update
`for j < cols, for i < rows: buf[off + i + j*ld] = f i j buf[off + i + j*ld]`. -/
def writeBlock (rows cols : Nat) (ld off : Int) (f : Nat → Nat → R → R) (buf : Int → R) :
    Int → R :=
  forLoop cols (fun j buf =>
    forLoop rows (fun i buf =>
      store buf (off + ((i : Int) + (j : Int) * ld))
        (f i j (buf (off + ((i : Int) + (j : Int) * ld))))) buf) buf

/-- Modelled from the spec: `rocblas_trmm` belongs to the external Level-3 BLAS
layer, taken as numerically exact.  `B := alpha * op(A) * B` (left) or
`B := alpha * B * op(A)` (right), with `B` an `m × n` block at `B + offB` and
`A` triangular of order `m` (left) or `n` (right); the product is formed from
the contents of `B` at the time of the call. -/
def rocblas_trmm (side : rocsolver_side) (uplo : rocsolver_fill) (transA : rocsolver_operation)
    (diag : rocblas_diagonal) (m n : Int) (alpha : R) (A : Int → R) (offA lda : Int)
    (B : Int → R) (offB ldb : Int) : Int → R :=
  writeBlock m.toNat n.toNat ldb offB (fun i j _ =>
    match side with
    | .left =>
        alpha * ∑ l in Finset.range m.toNat,
          opEntry transA (triEntry uplo diag A offA lda) i l
            * B (offB + ((l : Int) + (j : Int) * ldb))
    | .right =>
        alpha * ∑ l in Finset.range n.toNat,
          B (offB + ((i : Int) + (l : Int) * ldb))
            * opEntry transA (triEntry uplo diag A offA lda) l j) B

/-- Modelled from the spec: `rocblas_gemm` belongs to the external Level-3 BLAS
layer, taken as numerically exact.  `C := alpha * op(A) * op(B) + beta * C` with
`op(A)` of shape `m × k`, `op(B)` of shape `k × n` and `C` an `m × n` block at
`C + offC`; `A` and `B` lie in buffers other than that of `C`. -/
def rocblas_gemm (transA transB : rocsolver_operation) (m n k : Int) (alpha : R)
    (A : Int → R) (offA lda : Int) (B : Int → R) (offB ldb : Int) (beta : R)
    (C : Int → R) (offC ldc : Int) : Int → R :=
  writeBlock m.toNat n.toNat ldc offC (fun i j c =>
    alpha * (∑ l in Finset.range k.toNat,
        opEntry transA (fun i l => A (offA + ((i : Int) + (l : Int) * lda))) i l
          * opEntry transB (fun l j => B (offB + ((l : Int) + (j : Int) * ldb))) l j)
      + beta * c) C

/-! ## Device state and runtime calls -/

/-- The part of the device the routine can observe or change: the buffer of
`A`, the memory the workspace pointer designates, the live allocations, the
number of `hipMalloc` calls served so far, the operations issued so far (in
issue order), and whether an unset pointer has been handed to an operation. -/
structure Device (R : Type) where
  A : Int → R
  work : Int → R
  live : List Nat
  mallocs : Nat
  issued : List DeviceOp
  fault : Bool

/-- Record an issued operation. -/
def Device.issue (d : Device R) (op : DeviceOp) : Device R :=
  { d with issued := d.issued ++ [op] }

/-- Hand pointer `p` to an operation. -/
def Device.touch (d : Device R) (p : Option Nat) : Device R :=
  { d with fault := d.fault || p.isNone }

/-- The call `hipMalloc(&p, elems * sizeof(T))`; its result code is discarded by the caller. -/
def hipMalloc (mallocOk : Nat → Bool) (elems : Int) (d : Device R) : Option Nat × Device R :=
  let d1 : Device R := { d.issue (.hipMalloc elems) with mallocs := d.mallocs + 1 }
  if mallocOk d.mallocs then (some d.mallocs, { d1 with live := d.mallocs :: d.live })
  else (none, d1)

/-- The call `hipMemcpy(dst, &hostScalar, sizeof(T), hipMemcpyHostToDevice)`. -/
def hipMemcpy (dst : Option Nat) (d : Device R) : Device R :=
  (d.touch dst).issue .hipMemcpy

/-- The call `hipFree(p)`. -/
def hipFree (p : Option Nat) (d : Device R) : Device R :=
  { d.issue .hipFree with
    live := match p with
      | some a => d.live.erase a
      | none => d.live }

/-! ## The host routine -/

/-- The routine `rocsolver_larfb_template` (strided build).  `V` and `F` are the
buffers behind the pointers of the same name; the buffer behind `A` is `dev.A`,
and `dev.work` holds what the memory handed out for the workspace contains.  The
stream query `rocblas_get_stream` is host-side and leaves the device alone. -/
def rocsolver_larfb_template (mallocOk : Nat → Bool) (side : rocsolver_side)
    (trans : rocsolver_operation) (direct : rocsolver_direct) (m n k : Int)
    (V : Int → R) (shiftV ldv strideV : Int) (F : Int → R) (shiftF ldf strideF : Int)
    (shiftA lda strideA : Int) (batch_count : Int) (dev : Device R) :
    rocblas_status × Device R :=
  -- quick return
  if m = 0 ∨ n = 0 ∨ batch_count = 0 then (.success, dev) else
  -- constants to use when calling rocblas functions
  let minone : R := -1
  let r := hipMalloc mallocOk 1 dev
  let minoneInt := r.1
  let dev := hipMemcpy minoneInt r.2
  let one : R := 1
  let r := hipMalloc mallocOk 1 dev
  let oneInt := r.1
  let dev := hipMemcpy oneInt r.2
  -- BACKWARD DIRECTION TO BE IMPLEMENTED...
  let uploV := rocsolver_fill.lower
  let uploT := rocsolver_fill.upper
  if direct = .backward then (.not_implemented, dev) else
  -- determine the side, size of workspace and whether V is trapezoidal
  let leftside : Bool := decide (side = .left)
  let trap : Bool := if leftside then decide (m > k) else decide (n > k)
  let order : Int := if leftside then n else k
  let ldw : Int := if leftside then k else m
  let transp : rocsolver_operation := if leftside then .transpose else .none
  let strideW : Int := ldw * order
  -- memory in GPU (workspace)
  let r := hipMalloc mallocOk (strideW * batch_count) dev
  let work := r.1
  let dev := r.2
  -- copy A1 to work
  let blocksx : Int := (order - 1).tdiv 32 + 1
  let blocksy : Int := (ldw - 1).tdiv 32 + 1
  let dev := (dev.touch work).issue (.launch .copymatA1 blocksx blocksy batch_count)
  let dev := hipLaunchKernelGGL blocksx blocksy batch_count 32 32
    (fun b j i (dev : Device R) =>
      { dev with work := copymatA1 ldw order dev.A shiftA lda strideA dev.work b j i }) dev
  -- compute: V1' * A1   or   A1 * V1
  let dev := forLoop batch_count.toNat (fun b (dev : Device R) =>
    let Vp := load_ptr_batch shiftV b strideV
    { ((dev.touch oneInt).touch work).issue (.trmm b) with
      work := rocblas_trmm side uploV transp .unit ldw order one V Vp ldv
        dev.work ((b : Int) * strideW) ldw }) dev
  -- compute: V1' * A1 + V2' * A2   or   A1 * V1 + A2 * V2
  let dev :=
    if trap then
      forLoop batch_count.toNat (fun b (dev : Device R) =>
        let Ap := load_ptr_batch shiftA b strideA
        let Vp := load_ptr_batch shiftV b strideV
        if leftside then
          { ((dev.touch oneInt).touch work).issue (.gemm b) with
            work := rocblas_gemm transp .none ldw order (m - k) one
              V (Vp + idx2D k 0 ldv) ldv
              dev.A (Ap + idx2D k 0 lda) lda
              one dev.work ((b : Int) * strideW) ldw }
        else
          { ((dev.touch oneInt).touch work).issue (.gemm b) with
            work := rocblas_gemm transp .none ldw order (n - k) one
              dev.A (Ap + idx2D 0 k lda) lda
              V (Vp + idx2D k 0 ldv) ldv
              one dev.work ((b : Int) * strideW) ldw }) dev
    else dev
  -- compute: trans(T) * (V1' * A1 + V2' * A2)   or   (A1 * V1 + A2 * V2) * trans(T)
  let dev := forLoop batch_count.toNat (fun b (dev : Device R) =>
    let Fp := load_ptr_batch shiftF b strideF
    { ((dev.touch oneInt).touch work).issue (.trmm b) with
      work := rocblas_trmm side uploT trans .non_unit ldw order one F Fp ldf
        dev.work ((b : Int) * strideW) ldw }) dev
  -- compute: A2 - V2 * trans(T) * (...)   or   A2 - (...) * trans(T) * V2'
  let transp : rocsolver_operation := if leftside then .none else .transpose
  let dev :=
    if trap then
      forLoop batch_count.toNat (fun b (dev : Device R) =>
        let Ap := load_ptr_batch shiftA b strideA
        let Vp := load_ptr_batch shiftV b strideV
        if leftside then
          { (((dev.touch minoneInt).touch oneInt).touch work).issue (.gemm b) with
            A := rocblas_gemm transp .none (m - k) order ldw minone
              V (Vp + idx2D k 0 ldv) ldv
              dev.work ((b : Int) * strideW) ldw
              one dev.A (Ap + idx2D k 0 lda) lda }
        else
          { (((dev.touch minoneInt).touch oneInt).touch work).issue (.gemm b) with
            A := rocblas_gemm .none transp ldw (n - k) order minone
              dev.work ((b : Int) * strideW) ldw
              V (Vp + idx2D k 0 ldv) ldv
              one dev.A (Ap + idx2D 0 k lda) lda }) dev
    else dev
  -- compute: V1 * trans(T) * (...)   or   (...) * trans(T) * V1'
  let dev := forLoop batch_count.toNat (fun b (dev : Device R) =>
    let Vp := load_ptr_batch shiftV b strideV
    { ((dev.touch oneInt).touch work).issue (.trmm b) with
      work := rocblas_trmm side uploV transp .unit ldw order one V Vp ldv
        dev.work ((b : Int) * strideW) ldw }) dev
  -- compute: A1 - V1 * trans(T) * (...)   or   A1 - (...) * trans(T) * V1'
  let dev := (dev.touch work).issue (.launch .addmatA1 blocksx blocksy batch_count)
  let dev := hipLaunchKernelGGL blocksx blocksy batch_count 32 32
    (fun b j i (dev : Device R) =>
      { dev with A := addmatA1 ldw order dev.A shiftA lda strideA dev.work b j i }) dev
  let dev := hipFree minoneInt dev
  let dev := hipFree oneInt dev
  let dev := hipFree work dev
  (.success, dev)

/-! ## Regions, the data path, and the operands -/

/-- The cells of a `rows × cols` block stored at `off` with leading dimension `ld`. -/
def blockAt (off ld : Int) (rows cols : Nat) (x : Int) : Prop :=
  ∃ i j : Nat, i < rows ∧ j < cols ∧ x = off + ((i : Int) + (j : Int) * ld)

/-- The contents of the buffer of `A` after a forward call, as a function of
the contents of `A` and of the workspace before it: the eight device steps of
`rocsolver_larfb_template` without the bookkeeping of the device state. -/
def larfb_data (side : rocsolver_side) (trans : rocsolver_operation) (m n k : Int)
    (V : Int → R) (shiftV ldv strideV : Int) (F : Int → R) (shiftF ldf strideF : Int)
    (shiftA lda strideA : Int) (batch_count : Int) (A0 work0 : Int → R) : Int → R :=
  let leftside : Bool := decide (side = .left)
  let trap : Bool := if leftside then decide (m > k) else decide (n > k)
  let order : Int := if leftside then n else k
  let ldw : Int := if leftside then k else m
  let transp : rocsolver_operation := if leftside then .transpose else .none
  let strideW : Int := ldw * order
  let blocksx : Int := (order - 1).tdiv 32 + 1
  let blocksy : Int := (ldw - 1).tdiv 32 + 1
  let w1 := hipLaunchKernelGGL blocksx blocksy batch_count 32 32
    (fun b j i w => copymatA1 ldw order A0 shiftA lda strideA w b j i) work0
  let w2 := forLoop batch_count.toNat (fun b w =>
    rocblas_trmm side .lower transp .unit ldw order 1 V (load_ptr_batch shiftV b strideV) ldv
      w ((b : Int) * strideW) ldw) w1
  let w3 :=
    if trap then
      forLoop batch_count.toNat (fun b w =>
        if leftside then
          rocblas_gemm transp .none ldw order (m - k) 1
            V (load_ptr_batch shiftV b strideV + idx2D k 0 ldv) ldv
            A0 (load_ptr_batch shiftA b strideA + idx2D k 0 lda) lda
            1 w ((b : Int) * strideW) ldw
        else
          rocblas_gemm transp .none ldw order (n - k) 1
            A0 (load_ptr_batch shiftA b strideA + idx2D 0 k lda) lda
            V (load_ptr_batch shiftV b strideV + idx2D k 0 ldv) ldv
            1 w ((b : Int) * strideW) ldw) w2
    else w2
  let w4 := forLoop batch_count.toNat (fun b w =>
    rocblas_trmm side .upper trans .non_unit ldw order 1 F (load_ptr_batch shiftF b strideF) ldf
      w ((b : Int) * strideW) ldw) w3
  let transp2 : rocsolver_operation := if leftside then .none else .transpose
  let A5 :=
    if trap then
      forLoop batch_count.toNat (fun b A =>
        if leftside then
          rocblas_gemm transp2 .none (m - k) order ldw (-1)
            V (load_ptr_batch shiftV b strideV + idx2D k 0 ldv) ldv
            w4 ((b : Int) * strideW) ldw
            1 A (load_ptr_batch shiftA b strideA + idx2D k 0 lda) lda
        else
          rocblas_gemm .none transp2 ldw (n - k) order (-1)
            w4 ((b : Int) * strideW) ldw
            V (load_ptr_batch shiftV b strideV + idx2D k 0 ldv) ldv
            1 A (load_ptr_batch shiftA b strideA + idx2D 0 k lda) lda) A0
    else A0
  let w5 := forLoop batch_count.toNat (fun b w =>
    rocblas_trmm side .lower transp2 .unit ldw order 1 V (load_ptr_batch shiftV b strideV) ldv
      w ((b : Int) * strideW) ldw) w4
  hipLaunchKernelGGL blocksx blocksy batch_count 32 32
    (fun b j i A => addmatA1 ldw order A shiftA lda strideA w5 b j i) A5

/-- Entry `(i, l)` of the unit lower-trapezoidal `V` of instance `b`. -/
def entryV (V : Int → R) (shiftV ldv strideV : Int) (b i l : Nat) : R :=
  if l < i then V (load_ptr_batch shiftV b strideV + idx2D i l ldv)
  else if i = l then 1 else 0

/-- Entry `(i, l)` of the upper triangular `T` of instance `b`. -/
def entryT (F : Int → R) (shiftF ldf strideF : Int) (b i l : Nat) : R :=
  if i ≤ l then F (load_ptr_batch shiftF b strideF + idx2D i l ldf) else 0

/-- Entry `(i, j)` of instance `b` of `A`. -/
def entryA (A : Int → R) (shiftA lda strideA : Int) (b i j : Nat) : R :=
  A (load_ptr_batch shiftA b strideA + idx2D i j lda)

/-! ## Operands as matrices -/

/-- The `m × k` unit lower-trapezoidal matrix read from instance `b` of the
stored `V`: diagonal taken as 1, entries above the diagonal taken as 0. -/
def matV (V : Int → R) (shiftV ldv strideV : Int) (b m k : Nat) : Matrix (Fin m) (Fin k) R :=
  Matrix.of fun i l => entryV V shiftV ldv strideV b i l

/-- The `k × k` upper triangle, diagonal included, of instance `b` of the
stored factor `F`. -/
def matT (F : Int → R) (shiftF ldf strideF : Int) (b k : Nat) : Matrix (Fin k) (Fin k) R :=
  Matrix.of fun i l => entryT F shiftF ldf strideF b i l

/-- The `m × n` region of instance `b` of `A`. -/
def matA (A : Int → R) (shiftA lda strideA : Int) (b m n : Nat) : Matrix (Fin m) (Fin n) R :=
  Matrix.of fun i j => entryA A shiftA lda strideA b i j

/-- The factor `op(T)`: `T` for `trans = none`, its transpose for `trans = transpose`. -/
def opT {k : Nat} (trans : rocsolver_operation) (T : Matrix (Fin k) (Fin k) R) :
    Matrix (Fin k) (Fin k) R :=
  match trans with
  | .none => T
  | .transpose => T.transpose

/-- The order of the block reflector: `m` when applied from the left, `n` from the right. -/
def reflOrder (side : rocsolver_side) (m n : Nat) : Nat :=
  match side with
  | .left => m
  | .right => n

/-- The block reflector `I - V * T * Vᵗ` of instance `b`, of order `d`. -/
def blockReflector (V : Int → R) (shiftV ldv strideV : Int) (F : Int → R)
    (shiftF ldf strideF : Int) (b d k : Nat) : Matrix (Fin d) (Fin d) R :=
  1 - matV V shiftV ldv strideV b d k * matT F shiftF ldf strideF b k
    * (matV V shiftV ldv strideV b d k).transpose

/-- The buffer seen from the start of instance `b`: what a single-instance call
is handed when given only instance `b` of a strided batch. -/
def instanceView (X : Int → R) (b : Nat) (stride : Int) : Int → R :=
  fun x => X (x + (b : Int) * stride)

/-! ## Sample data -/

/-- A stored `V` whose only entry below the diagonal of column 0 is 1. -/
def sampleV : Int → Int := fun x => if x = 1 then 1 else 42

/-- A stored factor with all entries 1. -/
def sampleF : Int → Int := fun _ => 1

/-- A stored factor with all entries 0. -/
def sampleF0 : Int → Int := fun _ => 0

/-- A stored factor of order 2 (leading dimension 2) with zero diagonal and
entry `(0, 1)` equal to 1. -/
def sampleFdiag : Int → Int := fun x => if x = 2 then 1 else 0

/-- A stored factor of order 2 (leading dimension 2) equal to `sampleF` on and
above the diagonal, with 9 below it. -/
def sampleFlow : Int → Int := fun x => if x = 1 then 9 else 1

/-- A buffer for `A` holding 3, 5 at offsets 0, 1 and 7 elsewhere. -/
def sampleA : Int → Int := fun x => if x = 0 then 3 else if x = 1 then 5 else 7

/-- A device with `sampleA` behind `A`, nothing allocated and nothing issued. -/
def sampleDevice : Device Int :=
  { A := sampleA, work := fun _ => 99, live := [], mallocs := 0, issued := [], fault := false }

/-- The device a single-instance call sees when handed only instance 1 of the
buffer of `sampleDevice` (stride 2). -/
def sampleDeviceView : Device Int :=
  { sampleDevice with A := instanceView sampleA 1 2 }

/-! ## The batched LU tests -/

/-- The record `Arguments` of the test harness is declared outside the sources at
hand; these are the fields `setup_arguments_b` assigns. -/
structure Arguments where
  M : Int
  N : Int
  lda : Int
  bsp : Int
  timing : Int
  batch_count : Int

/-- The parameter list `matrix_size_range`: each entry is `{M, lda}`. -/
def matrix_size_range : List (Int × Int) :=
  [(0, 1), (-1, 1), (20, 5), (50, 50), (70, 100)]

/-- The parameter list `n_size_range`: each entry is `{N, stP}`. -/
def n_size_range : List (Int × Int) :=
  [(-1, 0), (0, 0), (20, 0), (40, 1), (100, 0)]

/-- The parameter list `large_matrix_size_range`. -/
def large_matrix_size_range : List (Int × Int) :=
  [(192, 192), (640, 640), (1000, 1024)]

/-- The parameter list `large_n_size_range`. -/
def large_n_size_range : List (Int × Int) :=
  [(45, 1), (64, 0), (520, 0), (1000, 0), (1024, 0)]

/-- The function `setup_arguments_b` of the test file. -/
def setup_arguments_b (matrix_size n_size : Int × Int) : Arguments :=
  { M := matrix_size.1
    N := n_size.1
    lda := matrix_size.2
    bsp := min matrix_size.1 n_size.1 + n_size.2
    timing := 0
    batch_count := 3 }

/-- The verdict of each of the four test bodies `TEST_P(LUfact_b, ...)` on the
status returned: a non-success status passes only as `invalid_size`, and only
when `M < 0 || N < 0 || lda < M`; otherwise `EXPECT_EQ(1000, status)` fails, no
status having the value 1000. -/
def LUfact_b_passes (arg : Arguments) (status : rocblas_status) : Bool :=
  if status ≠ .success then
    if arg.M < 0 ∨ arg.N < 0 ∨ arg.lda < arg.M then decide (status = .invalid_size)
    else false
  else true

/-- Modelled from the spec: the batched LU entry points `rocsolver_getf2_batched`
and `rocsolver_getrf_batched`, and the harness `testing_getf2_getrf_batched<T, getrf>`
that calls them, are not among the sources at hand.  Section 4.2: the call
"returns `invalid_size` for negative `M`, `N`, or `lda < max(1,M)`" and returns
success otherwise, a singular input included.  Neither the element type `T`
(float or double) nor the variant (`getrf = false` for getf2, `true` for getrf)
enters the status. -/
def testing_getf2_getrf_batched (T : Type) (getrf : Bool) (arg : Arguments) : rocblas_status :=
  if arg.M < 0 ∨ arg.N < 0 ∨ arg.lda < max 1 arg.M then .invalid_size else .success

/-- Modelled from the spec: the other reading, section 4.6 and section 8, where
"`M<1 || N<1 || lda<M`" yields `invalid_size` and a zero batch yields success. -/
def batched_driver_quick_return (arg : Arguments) : rocblas_status :=
  if arg.batch_count = 0 then .success
  else if arg.M < 1 ∨ arg.N < 1 ∨ arg.lda < arg.M then .invalid_size
  else .success

/-! ## Loops and block updates -/

theorem forLoop_succ {σ : Type} (n : Nat) (body : Nat → σ → σ) (s : σ) :
    forLoop (n + 1) body s = body n (forLoop n body s) := rfl

theorem forLoop_zero {σ : Type} (body : Nat → σ → σ) (s : σ) : forLoop 0 body s = s := rfl

/-- A quantity every iteration preserves is preserved by the loop. -/
theorem forLoop_inv {σ τ : Type} (f : σ → τ) (N : Nat) (body : Nat → σ → σ)
    (h : ∀ b s, b < N → f (body b s) = f s) (s : σ) : f (forLoop N body s) = f s := by
  induction N with
  | zero => rfl
  | succ N ih =>
    rw [forLoop_succ, h N _ (Nat.lt_succ_self N)]
    exact ih (fun b s hb => h b s (Nat.lt_succ_of_lt hb))

/-- Loops whose bodies agree on the iterations that run are equal. -/
theorem forLoop_congr {σ : Type} (N : Nat) (body body' : Nat → σ → σ)
    (h : ∀ b s, b < N → body b s = body' b s) (s : σ) : forLoop N body s = forLoop N body' s := by
  induction N with
  | zero => rfl
  | succ N ih =>
    rw [forLoop_succ, forLoop_succ, h N _ (Nat.lt_succ_self N),
      ih (fun b s hb => h b s (Nat.lt_succ_of_lt hb))]

/-- A guard `i < n` inside the body cuts the loop down to `n` iterations. -/
theorem forLoop_guard {σ : Type} (N n : Nat) (hn : n ≤ N) (g : Nat → σ → σ) (s : σ) :
    forLoop N (fun i s => if i < n then g i s else s) s = forLoop n g s := by
  induction N with
  | zero =>
    have : n = 0 := Nat.le_zero.mp hn
    subst this; rfl
  | succ N ih =>
    rw [forLoop_succ]
    by_cases h : N < n
    · have hN : n = N + 1 := by omega
      subst hN
      rw [if_pos h, forLoop_succ]
      congr 1
      apply forLoop_congr
      intro b s hb
      rw [if_pos (Nat.lt_succ_of_lt hb)]
    · rw [if_neg h]
      exact ih (by omega)

/-- A loop whose body does nothing. -/
theorem forLoop_id {σ : Type} (N : Nat) (s : σ) : forLoop N (fun _ s => s) s = s :=
  forLoop_inv id N _ (fun _ _ _ => rfl) s

/-- Iterations that write pairwise disjoint regions `S t`, each one reading the
buffer only inside its own region: every region ends up as its own iteration
leaves it, and everything outside the regions is untouched. -/
theorem forLoop_local {α : Type} (S : Nat → Int → Prop) (G : Nat → (Int → α) → (Int → α))
    (N : Nat)
    (hdisj : ∀ a b, a < N → b < N → a ≠ b → ∀ x, S a x → ¬ S b x)
    (hframe : ∀ t buf x, t < N → ¬ S t x → G t buf x = buf x)
    (hlocal : ∀ t buf buf', t < N → (∀ x, S t x → buf x = buf' x) →
      ∀ x, S t x → G t buf x = G t buf' x)
    (buf : Int → α) :
    (∀ t, t < N → ∀ x, S t x → forLoop N G buf x = G t buf x) ∧
    (∀ x, (∀ t, t < N → ¬ S t x) → forLoop N G buf x = buf x) := by
  induction N with
  | zero =>
    exact ⟨fun t ht => absurd ht (Nat.not_lt_zero t), fun x _ => rfl⟩
  | succ N ih =>
    obtain ⟨ih1, ih2⟩ := ih
      (fun a b ha hb => hdisj a b (Nat.lt_succ_of_lt ha) (Nat.lt_succ_of_lt hb))
      (fun t buf x ht => hframe t buf x (Nat.lt_succ_of_lt ht))
      (fun t buf buf' ht => hlocal t buf buf' (Nat.lt_succ_of_lt ht))
    constructor
    · intro t ht x hx
      rw [forLoop_succ]
      by_cases htN : t = N
      · subst htN
        apply hlocal t _ _ ht _ x hx
        intro y hy
        apply ih2
        intro u hu hyu
        exact hdisj u t (Nat.lt_succ_of_lt hu) ht (Nat.ne_of_lt hu) y hyu hy
      · have htN2 : t < N := by omega
        rw [hframe N _ x (Nat.lt_succ_self N)
          (fun hxN => hdisj t N ht (Nat.lt_succ_self N) htN x hx hxN)]
        exact ih1 t htN2 x hx
    · intro x hx
      rw [forLoop_succ, hframe N _ x (Nat.lt_succ_self N) (hx N (Nat.lt_succ_self N))]
      exact ih2 x (fun t ht => hx t (Nat.lt_succ_of_lt ht))

/-- Column-major offsets determine row and column when the row index stays
below the leading dimension. -/
theorem idx_inj (ld i i2 j j2 : Int) (hi0 : 0 ≤ i) (hi : i < ld) (hi20 : 0 ≤ i2) (hi2 : i2 < ld)
    (h : i + j * ld = i2 + j2 * ld) : i = i2 ∧ j = j2 := by
  have hld : ld ≠ 0 := by omega
  have h1 : (i + j * ld) / ld = j := by
    rw [Int.add_mul_ediv_right _ _ hld, Int.ediv_eq_zero_of_lt hi0 hi, zero_add]
  have h2 : (i2 + j2 * ld) / ld = j2 := by
    rw [Int.add_mul_ediv_right _ _ hld, Int.ediv_eq_zero_of_lt hi20 hi2, zero_add]
  have hj : j = j2 := by rw [← h1, ← h2, h]
  subst hj
  exact ⟨by linarith, rfl⟩

/-- A block update with rows no longer than the leading dimension sets every
cell of the block from its previous contents and leaves the rest alone. -/
theorem writeBlock_spec (rows cols : Nat) (ld off : Int) (hld : (rows : Int) ≤ ld)
    (f : Nat → Nat → R → R) (buf : Int → R) :
    (∀ i j, i < rows → j < cols →
      writeBlock rows cols ld off f buf (off + ((i : Int) + (j : Int) * ld))
        = f i j (buf (off + ((i : Int) + (j : Int) * ld)))) ∧
    (∀ x, ¬ blockAt off ld rows cols x → writeBlock rows cols ld off f buf x = buf x) := by
  -- one column
  have hcol : ∀ (j : Nat) (w : Int → R),
      (∀ i, i < rows → ∀ x, x = off + ((i : Int) + (j : Int) * ld) →
        forLoop rows (fun i buf =>
          store buf (off + ((i : Int) + (j : Int) * ld))
            (f i j (buf (off + ((i : Int) + (j : Int) * ld))))) w x
          = f i j (w x)) ∧
      (∀ x, (∀ i, i < rows → ¬ x = off + ((i : Int) + (j : Int) * ld)) →
        forLoop rows (fun i buf =>
          store buf (off + ((i : Int) + (j : Int) * ld))
            (f i j (buf (off + ((i : Int) + (j : Int) * ld))))) w x = w x) := by
    intro j w
    have := forLoop_local (fun i x => x = off + ((i : Int) + (j : Int) * ld))
      (fun i buf => store buf (off + ((i : Int) + (j : Int) * ld))
            (f i j (buf (off + ((i : Int) + (j : Int) * ld))))) rows
      (by intro a b _ _ hab x hxa hxb; apply hab; have := hxa.symm.trans hxb; omega)
      (by intro t buf x _ hx; simp only [store, if_neg hx])
      (by intro t buf buf2 _ hagree x hx
          simp only [store, hx, if_true]
          rw [hagree _ rfl]) w
    obtain ⟨h1, h2⟩ := this
    constructor
    · intro i hi x hx
      rw [h1 i hi x hx]
      simp only [store, hx, if_true]
    · exact h2
  have := forLoop_local (fun j x => ∃ i : Nat, i < rows ∧ x = off + ((i : Int) + (j : Int) * ld))
      (fun j buf => forLoop rows (fun i buf =>
          store buf (off + ((i : Int) + (j : Int) * ld))
            (f i j (buf (off + ((i : Int) + (j : Int) * ld))))) buf) cols
      (by
        rintro a b _ _ hab x ⟨i, hi, hx⟩ ⟨i2, hi2, hx2⟩
        apply hab
        have h := idx_inj ld i i2 a b (by omega) (by omega) (by omega) (by omega) (by omega)
        exact_mod_cast h.2)
      (by
        intro t w x _ hx
        apply (hcol t w).2
        intro i hi hxi
        exact hx ⟨i, hi, hxi⟩)
      (by
        rintro t w w2 _ hagree x ⟨i, hi, hx⟩
        beta_reduce
        rw [(hcol t w).1 i hi x hx, (hcol t w2).1 i hi x hx, hagree x ⟨i, hi, hx⟩]) buf
  obtain ⟨h1, h2⟩ := this
  constructor
  · intro i j hi hj
    have := h1 j hj _ ⟨i, hi, rfl⟩
    unfold writeBlock
    rw [this, (hcol j buf).1 i hi _ rfl]
  · intro x hx
    apply h2
    rintro j hj ⟨i, hi, hxi⟩
    exact hx ⟨i, j, hi, hj, hxi⟩

/-- A batch loop of block updates on pairwise disjoint blocks, where the
update of instance `b` looks at the buffer only inside block `b`. -/
theorem forLoop_writeBlock (rows cols : Nat) (ld : Int) (off : Nat → Int)
    (f : Nat → (Int → R) → Nat → Nat → R → R) (N : Nat) (hld : (rows : Int) ≤ ld)
    (hdisj : ∀ b b2, b < N → b2 < N → b ≠ b2 →
      ∀ x, blockAt (off b) ld rows cols x → ¬ blockAt (off b2) ld rows cols x)
    (hloc : ∀ b buf buf2, b < N → (∀ x, blockAt (off b) ld rows cols x → buf x = buf2 x) →
      ∀ i j c, i < rows → j < cols → f b buf i j c = f b buf2 i j c)
    (buf : Int → R) :
    (∀ b i j, b < N → i < rows → j < cols →
      forLoop N (fun b buf => writeBlock rows cols ld (off b) (f b buf) buf) buf
          (off b + ((i : Int) + (j : Int) * ld))
        = f b buf i j (buf (off b + ((i : Int) + (j : Int) * ld)))) ∧
    (∀ x, (∀ b, b < N → ¬ blockAt (off b) ld rows cols x) →
      forLoop N (fun b buf => writeBlock rows cols ld (off b) (f b buf) buf) buf x = buf x) := by
  have := forLoop_local (fun b x => blockAt (off b) ld rows cols x)
    (fun b buf => writeBlock rows cols ld (off b) (f b buf) buf) N hdisj
    (by intro t w x _ hx; exact (writeBlock_spec rows cols ld (off t) hld (f t w) w).2 x hx)
    (by
      rintro t w w2 ht hagree x ⟨i, j, hi, hj, hx⟩
      subst hx
      beta_reduce
      rw [(writeBlock_spec rows cols ld (off t) hld (f t w) w).1 i j hi hj,
        (writeBlock_spec rows cols ld (off t) hld (f t w2) w2).1 i j hi hj,
        hloc t w w2 ht hagree i j _ hi hj, hagree _ ⟨i, j, hi, hj, rfl⟩]) buf
  obtain ⟨h1, h2⟩ := this
  constructor
  · intro b i j hb hi hj
    rw [h1 b hb _ ⟨i, j, hi, hj, rfl⟩]
    exact (writeBlock_spec rows cols ld (off b) hld (f b buf) buf).1 i j hi hj
  · exact h2

/-! ## Projecting device loops to buffers -/

/-- A loop on the device state whose iterations rewrite the workspace from the
buffer of `A` and the workspace, and leave `A` alone. -/
theorem forLoop_updWork (N : Nat) (body : Nat → Device R → Device R)
    (g : Nat → (Int → R) → (Int → R) → (Int → R))
    (hA : ∀ b d, (body b d).A = d.A) (hW : ∀ b d, (body b d).work = g b d.A d.work)
    (d : Device R) :
    (forLoop N body d).A = d.A ∧
    (forLoop N body d).work = forLoop N (fun b w => g b d.A w) d.work := by
  induction N with
  | zero => exact ⟨rfl, rfl⟩
  | succ N ih =>
    obtain ⟨ihA, ihW⟩ := ih
    refine ⟨?_, ?_⟩
    · rw [forLoop_succ, hA, ihA]
    · rw [forLoop_succ, forLoop_succ, hW, ihA, ihW]

/-- A loop on the device state whose iterations rewrite the buffer of `A` from
the workspace and `A`, and leave the workspace alone. -/
theorem forLoop_updA (N : Nat) (body : Nat → Device R → Device R)
    (g : Nat → (Int → R) → (Int → R) → (Int → R))
    (hW : ∀ b d, (body b d).work = d.work) (hA : ∀ b d, (body b d).A = g b d.work d.A)
    (d : Device R) :
    (forLoop N body d).work = d.work ∧
    (forLoop N body d).A = forLoop N (fun b a => g b d.work a) d.A := by
  induction N with
  | zero => exact ⟨rfl, rfl⟩
  | succ N ih =>
    obtain ⟨ihW, ihA⟩ := ih
    refine ⟨?_, ?_⟩
    · rw [forLoop_succ, hW, ihW]
    · rw [forLoop_succ, forLoop_succ, hA, ihW, ihA]

/-- A kernel whose threads rewrite the workspace. -/
theorem launch_updWork (gx gy gz bx bdy : Int) (thread : Nat → Nat → Nat → Device R → Device R)
    (g : Nat → Nat → Nat → (Int → R) → (Int → R) → (Int → R))
    (hA : ∀ b j i d, (thread b j i d).A = d.A)
    (hW : ∀ b j i d, (thread b j i d).work = g b j i d.A d.work) (d : Device R) :
    (hipLaunchKernelGGL gx gy gz bx bdy thread d).A = d.A ∧
    (hipLaunchKernelGGL gx gy gz bx bdy thread d).work
      = hipLaunchKernelGGL gx gy gz bx bdy (fun b j i w => g b j i d.A w) d.work := by
  unfold hipLaunchKernelGGL
  apply forLoop_updWork _ _ (fun b A w => forLoop (gx * bx).toNat (fun j w =>
      forLoop (gy * bdy).toNat (fun i w => g b j i A w) w) w)
  · intro b d
    exact (forLoop_updWork _ _ (fun j A w => forLoop (gy * bdy).toNat (fun i w => g b j i A w) w)
      (fun j d => (forLoop_updWork _ _ (fun i A w => g b j i A w)
        (fun i d => hA b j i d) (fun i d => hW b j i d) d).1)
      (fun j d => (forLoop_updWork _ _ (fun i A w => g b j i A w)
        (fun i d => hA b j i d) (fun i d => hW b j i d) d).2) d).1
  · intro b d
    exact (forLoop_updWork _ _ (fun j A w => forLoop (gy * bdy).toNat (fun i w => g b j i A w) w)
      (fun j d => (forLoop_updWork _ _ (fun i A w => g b j i A w)
        (fun i d => hA b j i d) (fun i d => hW b j i d) d).1)
      (fun j d => (forLoop_updWork _ _ (fun i A w => g b j i A w)
        (fun i d => hA b j i d) (fun i d => hW b j i d) d).2) d).2

/-- A kernel whose threads rewrite the buffer of `A`. -/
theorem launch_updA (gx gy gz bx bdy : Int) (thread : Nat → Nat → Nat → Device R → Device R)
    (g : Nat → Nat → Nat → (Int → R) → (Int → R) → (Int → R))
    (hW : ∀ b j i d, (thread b j i d).work = d.work)
    (hA : ∀ b j i d, (thread b j i d).A = g b j i d.work d.A) (d : Device R) :
    (hipLaunchKernelGGL gx gy gz bx bdy thread d).work = d.work ∧
    (hipLaunchKernelGGL gx gy gz bx bdy thread d).A
      = hipLaunchKernelGGL gx gy gz bx bdy (fun b j i a => g b j i d.work a) d.A := by
  unfold hipLaunchKernelGGL
  apply forLoop_updA _ _ (fun b w a => forLoop (gx * bx).toNat (fun j a =>
      forLoop (gy * bdy).toNat (fun i a => g b j i w a) a) a)
  · intro b d
    exact (forLoop_updA _ _ (fun j w a => forLoop (gy * bdy).toNat (fun i a => g b j i w a) a)
      (fun j d => (forLoop_updA _ _ (fun i w a => g b j i w a)
        (fun i d => hW b j i d) (fun i d => hA b j i d) d).1)
      (fun j d => (forLoop_updA _ _ (fun i w a => g b j i w a)
        (fun i d => hW b j i d) (fun i d => hA b j i d) d).2) d).1
  · intro b d
    exact (forLoop_updA _ _ (fun j w a => forLoop (gy * bdy).toNat (fun i a => g b j i w a) a)
      (fun j d => (forLoop_updA _ _ (fun i w a => g b j i w a)
        (fun i d => hW b j i d) (fun i d => hA b j i d) d).1)
      (fun j d => (forLoop_updA _ _ (fun i w a => g b j i w a)
        (fun i d => hW b j i d) (fun i d => hA b j i d) d).2) d).2

/-! ## From the device state to the data path -/

theorem issue_A (d : Device R) (op : DeviceOp) : (d.issue op).A = d.A := rfl

theorem issue_work (d : Device R) (op : DeviceOp) : (d.issue op).work = d.work := rfl

theorem touch_A (d : Device R) (p : Option Nat) : (d.touch p).A = d.A := rfl

theorem touch_work (d : Device R) (p : Option Nat) : (d.touch p).work = d.work := rfl

theorem hipMemcpy_A (p : Option Nat) (d : Device R) : (hipMemcpy p d).A = d.A := rfl

theorem hipMemcpy_work (p : Option Nat) (d : Device R) : (hipMemcpy p d).work = d.work := rfl

theorem hipFree_A (p : Option Nat) (d : Device R) : (hipFree p d).A = d.A := rfl

theorem hipFree_work (p : Option Nat) (d : Device R) : (hipFree p d).work = d.work := rfl

theorem hipMalloc_snd_A (ok : Nat → Bool) (e : Int) (d : Device R) :
    (hipMalloc ok e d).2.A = d.A := by
  unfold hipMalloc; split <;> rfl

theorem hipMalloc_snd_work (ok : Nat → Bool) (e : Int) (d : Device R) :
    (hipMalloc ok e d).2.work = d.work := by
  unfold hipMalloc; split <;> rfl

/-- The batch loop of `rocblas_trmm` calls on the workspace, seen from the buffers. -/
theorem trmm_loop_proj (p q : Option Nat) (side : rocsolver_side) (uplo : rocsolver_fill)
    (tr : rocsolver_operation) (diag : rocblas_diagonal) (ldw order : Int) (one : R)
    (V : Int → R) (offV : Nat → Int) (ldv : Int) (offW : Nat → Int) (N : Nat) (d : Device R) :
    (forLoop N (fun b (dev : Device R) =>
        { ((dev.touch p).touch q).issue (.trmm b) with
          work := rocblas_trmm side uplo tr diag ldw order one V (offV b) ldv
            dev.work (offW b) ldw }) d).A = d.A ∧
    (forLoop N (fun b (dev : Device R) =>
        { ((dev.touch p).touch q).issue (.trmm b) with
          work := rocblas_trmm side uplo tr diag ldw order one V (offV b) ldv
            dev.work (offW b) ldw }) d).work
      = forLoop N (fun b w =>
          rocblas_trmm side uplo tr diag ldw order one V (offV b) ldv w (offW b) ldw) d.work :=
  forLoop_updWork N _
    (fun b _ w => rocblas_trmm side uplo tr diag ldw order one V (offV b) ldv w (offW b) ldw)
    (by intros; rfl) (by intros; rfl) d

/-- The batch loop of the first `rocblas_gemm` step, seen from the buffers. -/
theorem gemm_work_loop_proj (p q : Option Nat) (c : Bool) (t1 t2 t3 t4 : rocsolver_operation)
    (m1 n1 k1 m2 n2 k2 : Int) (one : R) (V : Int → R) (offV : Nat → Int) (ldv : Int)
    (offA1 offA2 : Nat → Int) (lda : Int) (offW : Nat → Int) (ldw : Int) (N : Nat)
    (d : Device R) :
    (forLoop N (fun b (dev : Device R) =>
        if c then
          { ((dev.touch p).touch q).issue (.gemm b) with
            work := rocblas_gemm t1 t2 m1 n1 k1 one V (offV b) ldv dev.A (offA1 b) lda
              one dev.work (offW b) ldw }
        else
          { ((dev.touch p).touch q).issue (.gemm b) with
            work := rocblas_gemm t3 t4 m2 n2 k2 one dev.A (offA2 b) lda V (offV b) ldv
              one dev.work (offW b) ldw }) d).A = d.A ∧
    (forLoop N (fun b (dev : Device R) =>
        if c then
          { ((dev.touch p).touch q).issue (.gemm b) with
            work := rocblas_gemm t1 t2 m1 n1 k1 one V (offV b) ldv dev.A (offA1 b) lda
              one dev.work (offW b) ldw }
        else
          { ((dev.touch p).touch q).issue (.gemm b) with
            work := rocblas_gemm t3 t4 m2 n2 k2 one dev.A (offA2 b) lda V (offV b) ldv
              one dev.work (offW b) ldw }) d).work
      = forLoop N (fun b w =>
          if c then
            rocblas_gemm t1 t2 m1 n1 k1 one V (offV b) ldv d.A (offA1 b) lda one w (offW b) ldw
          else
            rocblas_gemm t3 t4 m2 n2 k2 one d.A (offA2 b) lda V (offV b) ldv one w (offW b) ldw)
          d.work :=
  forLoop_updWork N _
    (fun b a w =>
      if c then
        rocblas_gemm t1 t2 m1 n1 k1 one V (offV b) ldv a (offA1 b) lda one w (offW b) ldw
      else
        rocblas_gemm t3 t4 m2 n2 k2 one a (offA2 b) lda V (offV b) ldv one w (offW b) ldw)
    (fun _ _ => by split <;> rfl) (fun _ _ => by split <;> rfl) d

/-- The batch loop of the second `rocblas_gemm` step, seen from the buffers. -/
theorem gemm_A_loop_proj (p q r : Option Nat) (c : Bool) (t1 t2 t3 t4 : rocsolver_operation)
    (m1 n1 k1 m2 n2 k2 : Int) (one minone : R) (V : Int → R) (offV : Nat → Int) (ldv : Int)
    (offA1 offA2 : Nat → Int) (lda : Int) (offW : Nat → Int) (ldw : Int) (N : Nat)
    (d : Device R) :
    (forLoop N (fun b (dev : Device R) =>
        if c then
          { (((dev.touch p).touch q).touch r).issue (.gemm b) with
            A := rocblas_gemm t1 t2 m1 n1 k1 minone V (offV b) ldv dev.work (offW b) ldw
              one dev.A (offA1 b) lda }
        else
          { (((dev.touch p).touch q).touch r).issue (.gemm b) with
            A := rocblas_gemm t3 t4 m2 n2 k2 minone dev.work (offW b) ldw V (offV b) ldv
              one dev.A (offA2 b) lda }) d).work = d.work ∧
    (forLoop N (fun b (dev : Device R) =>
        if c then
          { (((dev.touch p).touch q).touch r).issue (.gemm b) with
            A := rocblas_gemm t1 t2 m1 n1 k1 minone V (offV b) ldv dev.work (offW b) ldw
              one dev.A (offA1 b) lda }
        else
          { (((dev.touch p).touch q).touch r).issue (.gemm b) with
            A := rocblas_gemm t3 t4 m2 n2 k2 minone dev.work (offW b) ldw V (offV b) ldv
              one dev.A (offA2 b) lda }) d).A
      = forLoop N (fun b a =>
          if c then
            rocblas_gemm t1 t2 m1 n1 k1 minone V (offV b) ldv d.work (offW b) ldw
              one a (offA1 b) lda
          else
            rocblas_gemm t3 t4 m2 n2 k2 minone d.work (offW b) ldw V (offV b) ldv
              one a (offA2 b) lda) d.A :=
  forLoop_updA N _
    (fun b w a =>
      if c then
        rocblas_gemm t1 t2 m1 n1 k1 minone V (offV b) ldv w (offW b) ldw one a (offA1 b) lda
      else
        rocblas_gemm t3 t4 m2 n2 k2 minone w (offW b) ldw V (offV b) ldv one a (offA2 b) lda)
    (fun _ _ => by split <;> rfl) (fun _ _ => by split <;> rfl) d

/-- The launch of `copymatA1`, seen from the buffers. -/
theorem copymat_launch_proj (gx gy gz : Int) (ldw order shiftA lda strideA : Int)
    (d : Device R) :
    (hipLaunchKernelGGL gx gy gz 32 32 (fun b j i (dev : Device R) =>
        { dev with work := copymatA1 ldw order dev.A shiftA lda strideA dev.work b j i }) d).A
      = d.A ∧
    (hipLaunchKernelGGL gx gy gz 32 32 (fun b j i (dev : Device R) =>
        { dev with work := copymatA1 ldw order dev.A shiftA lda strideA dev.work b j i }) d).work
      = hipLaunchKernelGGL gx gy gz 32 32
          (fun b j i w => copymatA1 ldw order d.A shiftA lda strideA w b j i) d.work :=
  launch_updWork gx gy gz 32 32 _
    (fun b j i a w => copymatA1 ldw order a shiftA lda strideA w b j i)
    (by intros; rfl) (by intros; rfl) d

/-- The launch of `addmatA1`, seen from the buffers. -/
theorem addmat_launch_proj (gx gy gz : Int) (ldw order shiftA lda strideA : Int)
    (d : Device R) :
    (hipLaunchKernelGGL gx gy gz 32 32 (fun b j i (dev : Device R) =>
        { dev with A := addmatA1 ldw order dev.A shiftA lda strideA dev.work b j i }) d).work
      = d.work ∧
    (hipLaunchKernelGGL gx gy gz 32 32 (fun b j i (dev : Device R) =>
        { dev with A := addmatA1 ldw order dev.A shiftA lda strideA dev.work b j i }) d).A
      = hipLaunchKernelGGL gx gy gz 32 32
          (fun b j i a => addmatA1 ldw order a shiftA lda strideA d.work b j i) d.A :=
  launch_updA gx gy gz 32 32 _
    (fun b j i w a => addmatA1 ldw order a shiftA lda strideA w b j i)
    (by intros; rfl) (by intros; rfl) d

/-- In the forward direction, past the quick return, the routine reports
success and leaves in the buffer of `A` what the data path computes. -/
theorem template_forward (mallocOk : Nat → Bool) (side : rocsolver_side)
    (trans : rocsolver_operation) (m n k : Int)
    (V : Int → R) (shiftV ldv strideV : Int) (F : Int → R) (shiftF ldf strideF : Int)
    (shiftA lda strideA : Int) (batch_count : Int) (dev : Device R)
    (hq : ¬ (m = 0 ∨ n = 0 ∨ batch_count = 0)) :
    (rocsolver_larfb_template mallocOk side trans .forward m n k V shiftV ldv strideV
        F shiftF ldf strideF shiftA lda strideA batch_count dev).1 = .success ∧
    (rocsolver_larfb_template mallocOk side trans .forward m n k V shiftV ldv strideV
        F shiftF ldf strideF shiftA lda strideA batch_count dev).2.A
      = larfb_data side trans m n k V shiftV ldv strideV F shiftF ldf strideF
          shiftA lda strideA batch_count dev.A dev.work := by
  unfold rocsolver_larfb_template larfb_data
  simp only [hq, if_false, reduceCtorEq, true_and]
  by_cases hT : (if decide (side = rocsolver_side.left) = true then decide (m > k)
      else decide (n > k)) = true
  all_goals
    simp only [hT, if_true, if_false, Bool.false_eq_true]
    repeat (first
      | rw [hipFree_A]
      | rw [issue_A]
      | rw [issue_work]
      | rw [touch_A]
      | rw [touch_work]
      | rw [hipMemcpy_A]
      | rw [hipMemcpy_work]
      | rw [hipMalloc_snd_A]
      | rw [hipMalloc_snd_work]
      | rw [(addmat_launch_proj ..).2]
      | rw [(addmat_launch_proj ..).1]
      | rw [(copymat_launch_proj ..).2]
      | rw [(copymat_launch_proj ..).1]
      | rw [(trmm_loop_proj ..).2]
      | rw [(trmm_loop_proj ..).1]
      | rw [(gemm_work_loop_proj ..).2]
      | rw [(gemm_work_loop_proj ..).1]
      | rw [(gemm_A_loop_proj ..).2]
      | rw [(gemm_A_loop_proj ..).1])

/-! ## Kernel launches as batched block updates -/

/-- A grid of 32-wide blocks sized by `(r - 1) / 32 + 1` covers `r` threads. -/
theorem grid_cover (r : Nat) : r ≤ ((((r : Int) - 1).tdiv 32 + 1) * 32).toNat := by
  rcases Nat.eq_zero_or_pos r with h | h
  · subst h; exact Nat.zero_le _
  · have h1 : (0 : Int) ≤ (r : Int) - 1 := by omega
    rw [Int.tdiv_eq_ediv h1 (by norm_num)]
    omega

/-- A kernel whose threads are guarded by `i < rows && j < cols` acts as a
batch loop over the `rows × cols` index space. -/
theorem launch_guarded {σ : Type} (rows cols bc : Nat) (g : Nat → Nat → Nat → σ → σ) (s : σ) :
    hipLaunchKernelGGL (((cols : Int) - 1).tdiv 32 + 1) (((rows : Int) - 1).tdiv 32 + 1)
        (bc : Int) 32 32
        (fun b j i s => if (i : Int) < (rows : Int) ∧ (j : Int) < (cols : Int) then g b j i s else s) s
      = forLoop bc (fun b s => forLoop cols (fun j s => forLoop rows (fun i s => g b j i s) s) s)
          s := by
  unfold hipLaunchKernelGGL
  rw [Int.toNat_natCast]
  apply forLoop_congr
  intro b s _
  rw [← forLoop_guard _ cols (grid_cover cols)]
  apply forLoop_congr
  intro j s _
  by_cases hj : j < cols
  · rw [if_pos hj, ← forLoop_guard _ rows (grid_cover rows)]
    apply forLoop_congr
    intro i s _
    beta_reduce
    have hj2 : (j : Int) < (cols : Int) := by exact_mod_cast hj
    by_cases hi : i < rows
    · have hi2 : (i : Int) < (rows : Int) := by exact_mod_cast hi
      rw [if_pos hi, if_pos ⟨hi2, hj2⟩]
    · have hi2 : ¬ (i : Int) < (rows : Int) := by exact_mod_cast hi
      rw [if_neg hi, if_neg (fun h => hi2 h.1)]
  · have hj2 : ¬ (j : Int) < (cols : Int) := by exact_mod_cast hj
    rw [if_neg hj]
    have : (fun (i : Nat) (s : σ) =>
        if (i : Int) < (rows : Int) ∧ (j : Int) < (cols : Int) then g b j i s else s)
        = fun _ s => s := by
      funext i s
      rw [if_neg (fun h => hj2 h.2)]
    rw [this, forLoop_id]

/-- The launch of `copymatA1` as a batch loop of block updates. -/
theorem launch_copymatA1 (rows cols bc : Nat) (A : Int → R) (shiftA lda strideA : Int)
    (w : Int → R) :
    hipLaunchKernelGGL (((cols : Int) - 1).tdiv 32 + 1) (((rows : Int) - 1).tdiv 32 + 1)
        (bc : Int) 32 32
        (fun b j i w => copymatA1 (rows : Int) (cols : Int) A shiftA lda strideA w b j i) w
      = forLoop bc (fun b w =>
          writeBlock rows cols (rows : Int) ((b : Int) * ((rows : Int) * (cols : Int)))
            (fun i j _ => A (load_ptr_batch shiftA b strideA + ((i : Int) + (j : Int) * lda))) w)
          w :=
  launch_guarded rows cols bc
    (fun b j i w => store w ((b : Int) * ((rows : Int) * (cols : Int))
        + ((i : Int) + (j : Int) * (rows : Int)))
      (A (load_ptr_batch shiftA b strideA + ((i : Int) + (j : Int) * lda)))) w

/-- The launch of `addmatA1` as a batch loop of block updates. -/
theorem launch_addmatA1 (rows cols bc : Nat) (A : Int → R) (shiftA lda strideA : Int)
    (w : Int → R) :
    hipLaunchKernelGGL (((cols : Int) - 1).tdiv 32 + 1) (((rows : Int) - 1).tdiv 32 + 1)
        (bc : Int) 32 32
        (fun b j i a => addmatA1 (rows : Int) (cols : Int) a shiftA lda strideA w b j i) A
      = forLoop bc (fun b a =>
          writeBlock rows cols lda (load_ptr_batch shiftA b strideA)
            (fun i j c => c - w ((b : Int) * ((rows : Int) * (cols : Int))
              + ((i : Int) + (j : Int) * (rows : Int)))) a) A :=
  launch_guarded rows cols bc
    (fun b j i a => store a (load_ptr_batch shiftA b strideA + ((i : Int) + (j : Int) * lda))
      (a (load_ptr_batch shiftA b strideA + ((i : Int) + (j : Int) * lda))
        - w ((b : Int) * ((rows : Int) * (cols : Int))
          + ((i : Int) + (j : Int) * (rows : Int))))) A

/-! ## Disjointness of the instances -/

/-- Offsets inside a block stay below `ld * cols`. -/
theorem block_offset_lt (ld : Int) (rows cols i j : Nat) (hld : (rows : Int) ≤ ld)
    (hi : i < rows) (hj : j < cols) :
    0 ≤ (i : Int) + (j : Int) * ld ∧ (i : Int) + (j : Int) * ld < ld * (cols : Int) := by
  have hi2 : (i : Int) < (rows : Int) := by exact_mod_cast hi
  have h0 : (0 : Int) ≤ ld := by omega
  have h1 : ((j : Int) + 1) * ld ≤ (cols : Int) * ld := by
    apply mul_le_mul_of_nonneg_right _ h0
    exact_mod_cast hj
  have h2 : (0 : Int) ≤ (j : Int) * ld := mul_nonneg (by omega) h0
  constructor
  · omega
  · nlinarith

/-- The workspaces of two instances do not overlap. -/
theorem work_addr_inj (rows cols : Nat) (b b2 i i2 j j2 : Nat)
    (hi : i < rows) (hj : j < cols) (hi2 : i2 < rows) (hj2 : j2 < cols)
    (h : (b : Int) * ((rows : Int) * (cols : Int)) + ((i : Int) + (j : Int) * (rows : Int))
      = (b2 : Int) * ((rows : Int) * (cols : Int)) + ((i2 : Int) + (j2 : Int) * (rows : Int))) :
    b = b2 ∧ i = i2 ∧ j = j2 := by
  obtain ⟨h1, h2⟩ := block_offset_lt (rows : Int) rows cols i j le_rfl hi hj
  obtain ⟨h3, h4⟩ := block_offset_lt (rows : Int) rows cols i2 j2 le_rfl hi2 hj2
  have hb := idx_inj ((rows : Int) * (cols : Int)) _ _ (b : Int) (b2 : Int) h1 h2 h3 h4
    (by linarith)
  have hij := idx_inj (rows : Int) (i : Int) (i2 : Int) (j : Int) (j2 : Int) (by omega)
    (by exact_mod_cast hi) (by omega) (by exact_mod_cast hi2) hb.1
  exact ⟨by exact_mod_cast hb.2, by exact_mod_cast hij.1, by exact_mod_cast hij.2⟩

/-- Entries of the `m × n` regions of the instances of `A` have distinct
addresses, as soon as `lda ≥ m` and, for more than one instance,
`strideA ≥ lda * n`. -/
theorem A_addr_inj (m n bc : Nat) (shiftA lda strideA : Int) (hlda : (m : Int) ≤ lda)
    (hstride : bc ≤ 1 ∨ lda * (n : Int) ≤ strideA) (b b2 i i2 j j2 : Nat)
    (hb : b < bc) (hb2 : b2 < bc) (hi : i < m) (hj : j < n) (hi2 : i2 < m) (hj2 : j2 < n)
    (h : load_ptr_batch shiftA b strideA + ((i : Int) + (j : Int) * lda)
      = load_ptr_batch shiftA b2 strideA + ((i2 : Int) + (j2 : Int) * lda)) :
    b = b2 ∧ i = i2 ∧ j = j2 := by
  unfold load_ptr_batch at h
  obtain ⟨h1, h2⟩ := block_offset_lt lda m n i j hlda hi hj
  obtain ⟨h3, h4⟩ := block_offset_lt lda m n i2 j2 hlda hi2 hj2
  have hbb : b = b2 := by
    rcases hstride with hs | hs
    · omega
    · have := idx_inj strideA _ _ (b : Int) (b2 : Int) h1 (by omega) h3 (by omega) (by linarith)
      exact_mod_cast this.2
  subst hbb
  have hij := idx_inj lda (i : Int) (i2 : Int) (j : Int) (j2 : Int) (by omega) (by omega)
    (by omega) (by omega) (by linarith)
  exact ⟨rfl, by exact_mod_cast hij.1, by exact_mod_cast hij.2⟩

/-! ## The steps of the data path, instance by instance -/

/-- A batch loop of block updates on the workspace, each reading the workspace
only inside its own instance: the value left in cell `(i, j)` of instance `b`. -/
theorem work_loop_spec (rows cols N : Nat) (f : Nat → (Int → R) → Nat → Nat → R → R)
    (hloc : ∀ b buf buf2, b < N →
      (∀ i j, i < rows → j < cols →
        buf ((b : Int) * ((rows : Int) * (cols : Int)) + ((i : Int) + (j : Int) * (rows : Int)))
          = buf2 ((b : Int) * ((rows : Int) * (cols : Int))
              + ((i : Int) + (j : Int) * (rows : Int)))) →
      ∀ i j c, i < rows → j < cols → f b buf i j c = f b buf2 i j c)
    (w : Int → R) (b i j : Nat) (hb : b < N) (hi : i < rows) (hj : j < cols) :
    forLoop N (fun b w =>
        writeBlock rows cols (rows : Int) ((b : Int) * ((rows : Int) * (cols : Int))) (f b w) w) w
        ((b : Int) * ((rows : Int) * (cols : Int)) + ((i : Int) + (j : Int) * (rows : Int)))
      = f b w i j
          (w ((b : Int) * ((rows : Int) * (cols : Int))
            + ((i : Int) + (j : Int) * (rows : Int)))) := by
  refine (forLoop_writeBlock rows cols (rows : Int)
    (fun b => (b : Int) * ((rows : Int) * (cols : Int))) f N le_rfl ?_ ?_ w).1 b i j hb hi hj
  · rintro c c2 _ _ hne x ⟨i1, j1, hi1, hj1, hx1⟩ ⟨i2, j2, hi2, hj2, hx2⟩
    exact hne (work_addr_inj rows cols c c2 i1 i2 j1 j2 hi1 hj1 hi2 hj2 (hx1.symm.trans hx2)).1
  · intro c buf buf2 hc hagree i1 j1 x hi1 hj1
    exact hloc c buf buf2 hc (fun i2 j2 hi2 hj2 => hagree _ ⟨i2, j2, hi2, hj2, rfl⟩) i1 j1 x
      hi1 hj1

/-- A batch loop of block updates on a sub-block of the `m × n` region of each
instance of `A`, the sub-block starting at row `r0` and column `c0`: the cells
of the sub-blocks are updated, the other cells of the regions are kept. -/
theorem A_loop_spec (m n bc : Nat) (shiftA lda strideA : Int) (hlda : (m : Int) ≤ lda)
    (hstride : bc ≤ 1 ∨ lda * (n : Int) ≤ strideA) (r0 c0 rows cols : Nat)
    (hr : r0 + rows ≤ m) (hc : c0 + cols ≤ n) (off : Nat → Int)
    (hoff : ∀ b, off b = load_ptr_batch shiftA b strideA + ((r0 : Int) + (c0 : Int) * lda))
    (f : Nat → Nat → Nat → R → R) (A : Int → R) :
    (∀ b i j, b < bc → i < rows → j < cols →
      forLoop bc (fun b a => writeBlock rows cols lda (off b) (f b) a) A
          (load_ptr_batch shiftA b strideA
            + (((r0 + i : Nat) : Int) + ((c0 + j : Nat) : Int) * lda))
        = f b i j (A (load_ptr_batch shiftA b strideA
            + (((r0 + i : Nat) : Int) + ((c0 + j : Nat) : Int) * lda)))) ∧
    (∀ b i j, b < bc → i < m → j < n →
      ¬ (r0 ≤ i ∧ i < r0 + rows ∧ c0 ≤ j ∧ j < c0 + cols) →
      forLoop bc (fun b a => writeBlock rows cols lda (off b) (f b) a) A
          (load_ptr_batch shiftA b strideA + ((i : Int) + (j : Int) * lda))
        = A (load_ptr_batch shiftA b strideA + ((i : Int) + (j : Int) * lda))) := by
  have haddr : ∀ b i j : Nat, off b + ((i : Int) + (j : Int) * lda)
      = load_ptr_batch shiftA b strideA
          + (((r0 + i : Nat) : Int) + ((c0 + j : Nat) : Int) * lda) := by
    intro b i j
    rw [hoff]
    push_cast
    ring
  have hrows : (rows : Int) ≤ lda := by
    have : (rows : Int) ≤ (m : Int) := by exact_mod_cast (by omega : rows ≤ m)
    omega
  have hspec := forLoop_writeBlock rows cols lda off (fun b _ => f b) bc hrows
    (by
      rintro b b2 hb hb2 hne x ⟨i1, j1, hi1, hj1, hx1⟩ ⟨i2, j2, hi2, hj2, hx2⟩
      rw [haddr] at hx1 hx2
      exact hne (A_addr_inj m n bc shiftA lda strideA hlda hstride b b2 _ _ _ _ hb hb2
        (by omega) (by omega) (by omega) (by omega) (hx1.symm.trans hx2)).1)
    (by intro b buf buf2 _ _ i j c _ _; rfl) A
  obtain ⟨h1, h2⟩ := hspec
  constructor
  · intro b i j hb hi hj
    rw [← haddr]
    exact h1 b i j hb hi hj
  · intro b i j hb hi hj hout
    apply h2
    rintro b2 hb2 ⟨i2, j2, hi2, hj2, hx2⟩
    rw [haddr] at hx2
    have := A_addr_inj m n bc shiftA lda strideA hlda hstride b b2 i _ j _ hb hb2
      hi hj (by omega) (by omega) hx2
    apply hout
    omega

/-- The step `copymatA1`: the workspace of instance `b` receives the leading
`rows × cols` block of instance `b` of `A`. -/
theorem copy_stage (rows cols bc : Nat) (A : Int → R) (shiftA lda strideA : Int)
    (w : Int → R) (b i j : Nat) (hb : b < bc) (hi : i < rows) (hj : j < cols) :
    hipLaunchKernelGGL (((cols : Int) - 1).tdiv 32 + 1) (((rows : Int) - 1).tdiv 32 + 1)
        (bc : Int) 32 32
        (fun b j i w => copymatA1 (rows : Int) (cols : Int) A shiftA lda strideA w b j i) w
        ((b : Int) * ((rows : Int) * (cols : Int)) + ((i : Int) + (j : Int) * (rows : Int)))
      = A (load_ptr_batch shiftA b strideA + ((i : Int) + (j : Int) * lda)) := by
  rw [launch_copymatA1]
  exact work_loop_spec rows cols bc
    (fun b _ i j _ => A (load_ptr_batch shiftA b strideA + ((i : Int) + (j : Int) * lda)))
    (by intros; rfl) w b i j hb hi hj

/-- A batch loop of `rocblas_trmm` on the workspace: instance `b` is multiplied
by the triangular operand of instance `b`. -/
theorem trmm_stage (side : rocsolver_side) (uplo : rocsolver_fill) (tr : rocsolver_operation)
    (diag : rocblas_diagonal) (rows cols N : Nat) (X : Int → R) (offX : Nat → Int) (ldx : Int)
    (w : Int → R) (W : Nat → Nat → Nat → R)
    (hw : ∀ b i j, b < N → i < rows → j < cols →
      w ((b : Int) * ((rows : Int) * (cols : Int)) + ((i : Int) + (j : Int) * (rows : Int)))
        = W b i j)
    (b i j : Nat) (hb : b < N) (hi : i < rows) (hj : j < cols) :
    forLoop N (fun b w =>
        rocblas_trmm side uplo tr diag (rows : Int) (cols : Int) 1 X (offX b) ldx
          w ((b : Int) * ((rows : Int) * (cols : Int))) (rows : Int)) w
        ((b : Int) * ((rows : Int) * (cols : Int)) + ((i : Int) + (j : Int) * (rows : Int)))
      = match side with
        | .left => ∑ l in Finset.range rows,
            opEntry tr (triEntry uplo diag X (offX b) ldx) i l * W b l j
        | .right => ∑ l in Finset.range cols,
            W b i l * opEntry tr (triEntry uplo diag X (offX b) ldx) l j := by
  have h := work_loop_spec rows cols N
    (fun b w i j _ =>
      match side with
      | .left => (1 : R) * ∑ l in Finset.range rows,
          opEntry tr (triEntry uplo diag X (offX b) ldx) i l
            * w ((b : Int) * ((rows : Int) * (cols : Int))
                + ((l : Int) + (j : Int) * (rows : Int)))
      | .right => (1 : R) * ∑ l in Finset.range cols,
          w ((b : Int) * ((rows : Int) * (cols : Int))
                + ((i : Int) + (l : Int) * (rows : Int)))
            * opEntry tr (triEntry uplo diag X (offX b) ldx) l j)
    (by
      intro c buf buf2 _ hagree i1 j1 _ hi1 hj1
      cases side
      · simp only
        congr 1
        apply Finset.sum_congr rfl
        intro l hl
        rw [hagree l j1 (Finset.mem_range.mp hl) hj1]
      · simp only
        congr 1
        apply Finset.sum_congr rfl
        intro l hl
        rw [hagree i1 l hi1 (Finset.mem_range.mp hl)])
    w b i j hb hi hj
  unfold rocblas_trmm
  simp only [Int.toNat_natCast]
  rw [h]
  cases side
  · simp only [one_mul]
    apply Finset.sum_congr rfl
    intro l hl
    rw [hw b l j hb (Finset.mem_range.mp hl) hj]
  · simp only [one_mul]
    apply Finset.sum_congr rfl
    intro l hl
    rw [hw b i l hb hi (Finset.mem_range.mp hl)]

/-- A batch loop of `rocblas_gemm` accumulating into the workspace. -/
theorem gemm_work_stage (tA tB : rocsolver_operation) (rows cols N : Nat) (K : Int)
    (X : Int → R) (offX : Nat → Int) (ldx : Int) (Y : Int → R) (offY : Nat → Int) (ldy : Int)
    (w : Int → R) (b i j : Nat) (hb : b < N) (hi : i < rows) (hj : j < cols) :
    forLoop N (fun b w =>
        rocblas_gemm tA tB (rows : Int) (cols : Int) K 1 X (offX b) ldx Y (offY b) ldy 1
          w ((b : Int) * ((rows : Int) * (cols : Int))) (rows : Int)) w
        ((b : Int) * ((rows : Int) * (cols : Int)) + ((i : Int) + (j : Int) * (rows : Int)))
      = (∑ l in Finset.range K.toNat,
          opEntry tA (fun i l => X (offX b + ((i : Int) + (l : Int) * ldx))) i l
            * opEntry tB (fun l j => Y (offY b + ((l : Int) + (j : Int) * ldy))) l j)
        + w ((b : Int) * ((rows : Int) * (cols : Int))
            + ((i : Int) + (j : Int) * (rows : Int))) := by
  have h := work_loop_spec rows cols N
    (fun b _ i j c =>
      (1 : R) * (∑ l in Finset.range K.toNat,
          opEntry tA (fun i l => X (offX b + ((i : Int) + (l : Int) * ldx))) i l
            * opEntry tB (fun l j => Y (offY b + ((l : Int) + (j : Int) * ldy))) l j)
        + 1 * c)
    (by intros; rfl) w b i j hb hi hj
  unfold rocblas_gemm
  simp only [Int.toNat_natCast]
  rw [h]
  simp only [one_mul]

/-- A batch loop of `rocblas_gemm` accumulating into a sub-block of each
instance of `A`. -/
theorem gemm_A_stage (m n bc : Nat) (shiftA lda strideA : Int) (hlda : (m : Int) ≤ lda)
    (hstride : bc ≤ 1 ∨ lda * (n : Int) ≤ strideA) (r0 c0 : Nat) (M Nn : Int)
    (hr : r0 + M.toNat ≤ m) (hc : c0 + Nn.toNat ≤ n) (off : Nat → Int)
    (hoff : ∀ b, off b = load_ptr_batch shiftA b strideA + ((r0 : Int) + (c0 : Int) * lda))
    (tA tB : rocsolver_operation) (K : Int) (alpha beta : R)
    (X : Int → R) (offX : Nat → Int) (ldx : Int) (Y : Int → R) (offY : Nat → Int) (ldy : Int)
    (A : Int → R) :
    (∀ b i j, b < bc → i < M.toNat → j < Nn.toNat →
      forLoop bc (fun b a =>
          rocblas_gemm tA tB M Nn K alpha X (offX b) ldx Y (offY b) ldy beta a (off b) lda) A
          (load_ptr_batch shiftA b strideA
            + (((r0 + i : Nat) : Int) + ((c0 + j : Nat) : Int) * lda))
        = alpha * (∑ l in Finset.range K.toNat,
            opEntry tA (fun i l => X (offX b + ((i : Int) + (l : Int) * ldx))) i l
              * opEntry tB (fun l j => Y (offY b + ((l : Int) + (j : Int) * ldy))) l j)
          + beta * A (load_ptr_batch shiftA b strideA
            + (((r0 + i : Nat) : Int) + ((c0 + j : Nat) : Int) * lda))) ∧
    (∀ b i j, b < bc → i < m → j < n →
      ¬ (r0 ≤ i ∧ i < r0 + M.toNat ∧ c0 ≤ j ∧ j < c0 + Nn.toNat) →
      forLoop bc (fun b a =>
          rocblas_gemm tA tB M Nn K alpha X (offX b) ldx Y (offY b) ldy beta a (off b) lda) A
          (load_ptr_batch shiftA b strideA + ((i : Int) + (j : Int) * lda))
        = A (load_ptr_batch shiftA b strideA + ((i : Int) + (j : Int) * lda))) :=
  A_loop_spec m n bc shiftA lda strideA hlda hstride r0 c0 M.toNat Nn.toNat hr hc off hoff
    (fun b i j c =>
      alpha * (∑ l in Finset.range K.toNat,
          opEntry tA (fun i l => X (offX b + ((i : Int) + (l : Int) * ldx))) i l
            * opEntry tB (fun l j => Y (offY b + ((l : Int) + (j : Int) * ldy))) l j)
        + beta * c) A

/-- The step `addmatA1`: the workspace of instance `b` is subtracted from the
leading `rows × cols` block of instance `b` of `A`. -/
theorem addmat_stage (m n bc : Nat) (shiftA lda strideA : Int) (hlda : (m : Int) ≤ lda)
    (hstride : bc ≤ 1 ∨ lda * (n : Int) ≤ strideA) (rows cols : Nat)
    (hr : rows ≤ m) (hc : cols ≤ n) (w A : Int → R) :
    (∀ b i j, b < bc → i < rows → j < cols →
      hipLaunchKernelGGL (((cols : Int) - 1).tdiv 32 + 1) (((rows : Int) - 1).tdiv 32 + 1)
          (bc : Int) 32 32
          (fun b j i a => addmatA1 (rows : Int) (cols : Int) a shiftA lda strideA w b j i) A
          (load_ptr_batch shiftA b strideA + ((i : Int) + (j : Int) * lda))
        = A (load_ptr_batch shiftA b strideA + ((i : Int) + (j : Int) * lda))
          - w ((b : Int) * ((rows : Int) * (cols : Int))
              + ((i : Int) + (j : Int) * (rows : Int)))) ∧
    (∀ b i j, b < bc → i < m → j < n → ¬ (i < rows ∧ j < cols) →
      hipLaunchKernelGGL (((cols : Int) - 1).tdiv 32 + 1) (((rows : Int) - 1).tdiv 32 + 1)
          (bc : Int) 32 32
          (fun b j i a => addmatA1 (rows : Int) (cols : Int) a shiftA lda strideA w b j i) A
          (load_ptr_batch shiftA b strideA + ((i : Int) + (j : Int) * lda))
        = A (load_ptr_batch shiftA b strideA + ((i : Int) + (j : Int) * lda))) := by
  rw [launch_addmatA1]
  have h := A_loop_spec m n bc shiftA lda strideA hlda hstride 0 0 rows cols
    (by omega) (by omega) (fun b => load_ptr_batch shiftA b strideA)
    (by intro b; push_cast; ring)
    (fun b i j c => c - w ((b : Int) * ((rows : Int) * (cols : Int))
              + ((i : Int) + (j : Int) * (rows : Int)))) A
  obtain ⟨h1, h2⟩ := h
  constructor
  · intro b i j hb hi hj
    have := h1 b i j hb hi hj
    simp only [Nat.zero_add] at this
    exact this
  · intro b i j hb hi hj hout
    apply h2 b i j hb hi hj
    omega

/-! ## Entries of the operands -/

theorem idx2D_eq (i j ld : Int) : idx2D i j ld = i + j * ld := by
  unfold idx2D; ring

theorem opEntry_none (e : Nat → Nat → R) (i l : Nat) : opEntry .none e i l = e i l := rfl

theorem opEntry_transpose (e : Nat → Nat → R) (i l : Nat) :
    opEntry .transpose e i l = e l i := rfl

theorem entryA_eq (A : Int → R) (shiftA lda strideA : Int) (b i j : Nat) :
    A (load_ptr_batch shiftA b strideA + ((i : Int) + (j : Int) * lda))
      = entryA A shiftA lda strideA b i j := by
  unfold entryA; rw [idx2D_eq]

theorem entryA_shift_row (A : Int → R) (shiftA lda strideA : Int) (b k p j : Nat) :
    A (load_ptr_batch shiftA b strideA + idx2D (k : Int) 0 lda + ((p : Int) + (j : Int) * lda))
      = entryA A shiftA lda strideA b (k + p) j := by
  unfold entryA; rw [idx2D_eq, idx2D_eq]; congr 1; push_cast; ring

theorem entryA_shift_col (A : Int → R) (shiftA lda strideA : Int) (b k i p : Nat) :
    A (load_ptr_batch shiftA b strideA + idx2D 0 (k : Int) lda + ((i : Int) + (p : Int) * lda))
      = entryA A shiftA lda strideA b i (k + p) := by
  unfold entryA; rw [idx2D_eq, idx2D_eq]; congr 1; push_cast; ring

theorem triEntry_lower_unit (V : Int → R) (shiftV ldv strideV : Int) (b i l : Nat) :
    triEntry .lower .unit V (load_ptr_batch shiftV b strideV) ldv i l
      = entryV V shiftV ldv strideV b i l := by
  unfold triEntry entryV
  rw [idx2D_eq]
  by_cases h : i = l
  · subst h; simp
  · simp only [h, if_false]

theorem triEntry_upper_non_unit (F : Int → R) (shiftF ldf strideF : Int) (b i l : Nat) :
    triEntry .upper .non_unit F (load_ptr_batch shiftF b strideF) ldf i l
      = entryT F shiftF ldf strideF b i l := by
  unfold triEntry entryT
  rw [idx2D_eq]
  by_cases h : i = l
  · subst h; simp
  · simp only [h, if_false]
    by_cases h2 : i < l
    · rw [if_pos h2, if_pos (Nat.le_of_lt h2)]
    · rw [if_neg h2, if_neg (by omega)]

theorem triEntry_upper_fun (F : Int → R) (shiftF ldf strideF : Int) (b : Nat) :
    triEntry .upper .non_unit F (load_ptr_batch shiftF b strideF) ldf
      = entryT F shiftF ldf strideF b := by
  funext i l
  exact triEntry_upper_non_unit F shiftF ldf strideF b i l

theorem entryV_shift_row (V : Int → R) (shiftV ldv strideV : Int) (b k p l : Nat) (hl : l < k) :
    V (load_ptr_batch shiftV b strideV + idx2D (k : Int) 0 ldv + ((p : Int) + (l : Int) * ldv))
      = entryV V shiftV ldv strideV b (k + p) l := by
  unfold entryV
  rw [if_pos (by omega), idx2D_eq, idx2D_eq]; congr 1; push_cast; ring

/-! ## The data path computes the block-reflector product -/

/-- Left side, entry by entry: the data path leaves
`A - V * op(T) * (Vᵗ * A)` in the `m × n` region of every instance. -/
theorem larfb_data_left (trans : rocsolver_operation) (m n k bc : Nat)
    (V : Int → R) (shiftV ldv strideV : Int) (F : Int → R) (shiftF ldf strideF : Int)
    (shiftA lda strideA : Int) (A0 work0 : Int → R)
    (hk : k ≤ m) (hlda : (m : Int) ≤ lda) (hstride : bc ≤ 1 ∨ lda * (n : Int) ≤ strideA)
    (b i j : Nat) (hb : b < bc) (hi : i < m) (hj : j < n) :
    larfb_data .left trans (m : Int) (n : Int) (k : Int) V shiftV ldv strideV
        F shiftF ldf strideF shiftA lda strideA (bc : Int) A0 work0
        (load_ptr_batch shiftA b strideA + idx2D i j lda)
      = entryA A0 shiftA lda strideA b i j
        - ∑ l in Finset.range k, entryV V shiftV ldv strideV b i l
          * ∑ q in Finset.range k, opEntry trans (entryT F shiftF ldf strideF b) l q
            * ∑ p in Finset.range m, entryV V shiftV ldv strideV b p q
              * entryA A0 shiftA lda strideA b p j := by
  unfold larfb_data
  simp only [decide_True, if_true, Int.toNat_natCast]
  -- step 1: copy
  have hw1 := copy_stage k n bc A0 shiftA lda strideA work0
  generalize hipLaunchKernelGGL _ _ _ _ _
    (fun b j i w => copymatA1 _ _ A0 _ _ _ w b j i) work0 = w1 at hw1 ⊢
  -- step 2: V1' * A1
  have hw2 := trmm_stage .left .lower .transpose .unit k n bc V
    (fun b => load_ptr_batch shiftV b strideV) ldv w1 _ hw1
  generalize forLoop bc (fun b w => rocblas_trmm _ _ .transpose _ _ _ _ V _ _ w _ _) w1 = w2
    at hw2 ⊢
  simp only [opEntry_transpose, triEntry_lower_unit, entryA_eq] at hw2
  -- step 3: + V2' * A2
  have hw3 : ∀ b q j, b < bc → q < k → j < n →
      (if decide ((m : Int) > (k : Int)) = true then
        forLoop bc (fun b w =>
          rocblas_gemm .transpose .none (k : Int) (n : Int) ((m : Int) - (k : Int)) 1
            V (load_ptr_batch shiftV b strideV + idx2D (k : Int) 0 ldv) ldv
            A0 (load_ptr_batch shiftA b strideA + idx2D (k : Int) 0 lda) lda
            1 w ((b : Int) * ((k : Int) * (n : Int))) (k : Int)) w2
      else w2) ((b : Int) * ((k : Int) * (n : Int)) + ((q : Int) + (j : Int) * (k : Int)))
      = ∑ p in Finset.range m, entryV V shiftV ldv strideV b p q
          * entryA A0 shiftA lda strideA b p j := by
    intro b q j hb hq hj
    have hsplit : m = k + (m - k) := by omega
    rw [hsplit, Finset.sum_range_add, ← hsplit]
    by_cases hmk : (m : Int) > (k : Int)
    · simp only [hmk, decide_True, if_true]
      rw [gemm_work_stage .transpose .none k n bc ((m : Int) - (k : Int)) V
        (fun b => load_ptr_batch shiftV b strideV + idx2D (k : Int) 0 ldv) ldv A0
        (fun b => load_ptr_batch shiftA b strideA + idx2D (k : Int) 0 lda) lda w2 b q j hb hq hj,
        hw2 b q j hb hq hj, Int.toNat_sub, add_comm]
      congr 1
      apply Finset.sum_congr rfl
      intro p _
      simp only [opEntry_none, opEntry_transpose]
      rw [entryV_shift_row V shiftV ldv strideV b k p q hq,
        entryA_shift_row A0 shiftA lda strideA b k p j]
    · simp only [hmk, decide_False, if_false, Bool.false_eq_true]
      have hmk2 : m - k = 0 := by omega
      rw [hw2 b q j hb hq hj, hmk2, Finset.sum_range_zero, add_zero]
  generalize (if decide ((m : Int) > (k : Int)) = true then
        forLoop bc (fun b w =>
          rocblas_gemm .transpose .none _ _ _ _ V _ _ A0 _ _ _ w _ _) w2
      else w2) = w3 at hw3 ⊢
  -- step 4: op(T) * (...)
  have hw4 := trmm_stage .left .upper trans .non_unit k n bc F
    (fun b => load_ptr_batch shiftF b strideF) ldf w3 _ hw3
  generalize forLoop bc (fun b w => rocblas_trmm _ .upper _ _ _ _ _ F _ _ w _ _) w3 = w4
    at hw4 ⊢
  simp only [triEntry_upper_fun] at hw4
  -- step 5: A2 - V2 * (...)
  have hA5 : ∀ b i j, b < bc → i < m → j < n →
      (if decide ((m : Int) > (k : Int)) = true then
        forLoop bc (fun b A =>
          rocblas_gemm .none .none ((m : Int) - (k : Int)) (n : Int) (k : Int) (-1)
            V (load_ptr_batch shiftV b strideV + idx2D (k : Int) 0 ldv) ldv
            w4 ((b : Int) * ((k : Int) * (n : Int))) (k : Int)
            1 A (load_ptr_batch shiftA b strideA + idx2D (k : Int) 0 lda) lda) A0
      else A0) (load_ptr_batch shiftA b strideA + ((i : Int) + (j : Int) * lda))
      = if i < k then entryA A0 shiftA lda strideA b i j
        else entryA A0 shiftA lda strideA b i j
          - ∑ l in Finset.range k, entryV V shiftV ldv strideV b i l
            * w4 ((b : Int) * ((k : Int) * (n : Int)) + ((l : Int) + (j : Int) * (k : Int))) := by
    intro b i j hb hi hj
    by_cases hmk : (m : Int) > (k : Int)
    · simp only [hmk, decide_True, if_true]
      have hst := gemm_A_stage m n bc shiftA lda strideA hlda hstride k 0
        ((m : Int) - (k : Int)) (n : Int)
        (by rw [Int.toNat_sub]; omega) (by rw [Int.toNat_natCast]; omega)
        (fun b => load_ptr_batch shiftA b strideA + idx2D (k : Int) 0 lda)
        (by intro b; rw [idx2D_eq]; push_cast; ring)
        .none .none (k : Int) (-1 : R) 1 V
        (fun b => load_ptr_batch shiftV b strideV + idx2D (k : Int) 0 ldv) ldv
        w4 (fun b => (b : Int) * ((k : Int) * (n : Int))) (k : Int) A0
      obtain ⟨h1, h2⟩ := hst
      by_cases hik : i < k
      · rw [if_pos hik, h2 b i j hb hi hj (by omega), entryA_eq A0]
      · rw [if_neg hik]
        have hi2 : i = k + (i - k) := by omega
        have h3 := h1 b (i - k) j hb (by rw [Int.toNat_sub]; omega)
          (by rw [Int.toNat_natCast]; exact hj)
        rw [← hi2, Nat.zero_add] at h3
        rw [h3, Int.toNat_natCast, entryA_eq A0]
        simp only [opEntry_none]
        have hsum : ∀ l ∈ Finset.range k,
            V (load_ptr_batch shiftV b strideV + idx2D (k : Int) 0 ldv
                + (((i - k : Nat) : Int) + (l : Int) * ldv))
              * w4 ((b : Int) * ((k : Int) * (n : Int)) + ((l : Int) + (j : Int) * (k : Int)))
            = entryV V shiftV ldv strideV b i l
              * w4 ((b : Int) * ((k : Int) * (n : Int))
                + ((l : Int) + (j : Int) * (k : Int))) := by
          intro l hl
          rw [entryV_shift_row V shiftV ldv strideV b k (i - k) l (Finset.mem_range.mp hl),
            ← hi2]
        rw [Finset.sum_congr rfl hsum]
        ring
    · simp only [hmk, decide_False, if_false, Bool.false_eq_true]
      have hik : i < k := by omega
      rw [if_pos hik, entryA_eq A0]
  generalize (if decide ((m : Int) > (k : Int)) = true then
        forLoop bc (fun b A =>
          rocblas_gemm .none .none _ _ _ _ V _ _ w4 _ _ _ A _ _) A0
      else A0) = A5 at hA5 ⊢
  -- step 6: V1 * (...)
  have hw5 := trmm_stage .left .lower .none .unit k n bc V
    (fun b => load_ptr_batch shiftV b strideV) ldv w4 _ hw4
  generalize forLoop bc (fun b w => rocblas_trmm _ .lower _ _ _ _ _ V _ _ w _ _) w4 = w5
    at hw5 ⊢
  simp only [opEntry_none, triEntry_lower_unit] at hw5
  -- step 7: A1 - (...)
  obtain ⟨h1, h2⟩ := addmat_stage m n bc shiftA lda strideA hlda hstride k n hk le_rfl w5 A5
  rw [idx2D_eq]
  by_cases hik : i < k
  · rw [h1 b i j hb hik hj, hA5 b i j hb hi hj, if_pos hik, hw5 b i j hb hik hj]
  · rw [h2 b i j hb hi hj (fun h => hik h.1), hA5 b i j hb hi hj, if_neg hik]
    congr 1
    apply Finset.sum_congr rfl
    intro l hl
    rw [hw4 b l j hb (Finset.mem_range.mp hl) hj]

/-- Right side, entry by entry: the data path leaves
`A - ((A * V) * op(T)) * Vᵗ` in the `m × n` region of every instance. -/
theorem larfb_data_right (trans : rocsolver_operation) (m n k bc : Nat)
    (V : Int → R) (shiftV ldv strideV : Int) (F : Int → R) (shiftF ldf strideF : Int)
    (shiftA lda strideA : Int) (A0 work0 : Int → R)
    (hk : k ≤ n) (hlda : (m : Int) ≤ lda) (hstride : bc ≤ 1 ∨ lda * (n : Int) ≤ strideA)
    (b i j : Nat) (hb : b < bc) (hi : i < m) (hj : j < n) :
    larfb_data .right trans (m : Int) (n : Int) (k : Int) V shiftV ldv strideV
        F shiftF ldf strideF shiftA lda strideA (bc : Int) A0 work0
        (load_ptr_batch shiftA b strideA + idx2D i j lda)
      = entryA A0 shiftA lda strideA b i j
        - ∑ l in Finset.range k,
            (∑ q in Finset.range k,
              (∑ p in Finset.range n, entryA A0 shiftA lda strideA b i p
                * entryV V shiftV ldv strideV b p q)
              * opEntry trans (entryT F shiftF ldf strideF b) q l)
            * entryV V shiftV ldv strideV b j l := by
  unfold larfb_data
  simp only [reduceCtorEq, decide_False, Bool.false_eq_true, if_false, Int.toNat_natCast]
  -- step 1: copy
  have hw1 := copy_stage m k bc A0 shiftA lda strideA work0
  generalize hipLaunchKernelGGL _ _ _ _ _
    (fun b j i w => copymatA1 _ _ A0 _ _ _ w b j i) work0 = w1 at hw1 ⊢
  -- step 2: A1 * V1
  have hw2 := trmm_stage .right .lower .none .unit m k bc V
    (fun b => load_ptr_batch shiftV b strideV) ldv w1 _ hw1
  generalize forLoop bc (fun b w => rocblas_trmm _ _ .none _ _ _ _ V _ _ w _ _) w1 = w2
    at hw2 ⊢
  simp only [opEntry_none, triEntry_lower_unit, entryA_eq] at hw2
  -- step 3: + A2 * V2
  have hw3 : ∀ b i q, b < bc → i < m → q < k →
      (if decide ((n : Int) > (k : Int)) = true then
        forLoop bc (fun b w =>
          rocblas_gemm .none .none (m : Int) (k : Int) ((n : Int) - (k : Int)) 1
            A0 (load_ptr_batch shiftA b strideA + idx2D 0 (k : Int) lda) lda
            V (load_ptr_batch shiftV b strideV + idx2D (k : Int) 0 ldv) ldv
            1 w ((b : Int) * ((m : Int) * (k : Int))) (m : Int)) w2
      else w2) ((b : Int) * ((m : Int) * (k : Int)) + ((i : Int) + (q : Int) * (m : Int)))
      = ∑ p in Finset.range n, entryA A0 shiftA lda strideA b i p
          * entryV V shiftV ldv strideV b p q := by
    intro b i q hb hi hq
    have hsplit : n = k + (n - k) := by omega
    rw [hsplit, Finset.sum_range_add, ← hsplit]
    by_cases hnk : (n : Int) > (k : Int)
    · simp only [hnk, decide_True, if_true]
      rw [gemm_work_stage .none .none m k bc ((n : Int) - (k : Int)) A0
        (fun b => load_ptr_batch shiftA b strideA + idx2D 0 (k : Int) lda) lda V
        (fun b => load_ptr_batch shiftV b strideV + idx2D (k : Int) 0 ldv) ldv w2 b i q hb hi hq,
        hw2 b i q hb hi hq, Int.toNat_sub, add_comm]
      congr 1
      apply Finset.sum_congr rfl
      intro p _
      simp only [opEntry_none]
      rw [entryV_shift_row V shiftV ldv strideV b k p q hq,
        entryA_shift_col A0 shiftA lda strideA b k i p]
    · simp only [hnk, decide_False, if_false, Bool.false_eq_true]
      have hnk2 : n - k = 0 := by omega
      rw [hw2 b i q hb hi hq, hnk2, Finset.sum_range_zero, add_zero]
  generalize (if decide ((n : Int) > (k : Int)) = true then
        forLoop bc (fun b w =>
          rocblas_gemm .none .none _ _ _ _ A0 _ _ V _ _ _ w _ _) w2
      else w2) = w3 at hw3 ⊢
  -- step 4: (...) * op(T)
  have hw4 := trmm_stage .right .upper trans .non_unit m k bc F
    (fun b => load_ptr_batch shiftF b strideF) ldf w3 _ hw3
  generalize forLoop bc (fun b w => rocblas_trmm _ .upper _ _ _ _ _ F _ _ w _ _) w3 = w4
    at hw4 ⊢
  simp only [triEntry_upper_fun] at hw4
  -- step 5: A2 - (...) * V2'
  have hA5 : ∀ b i j, b < bc → i < m → j < n →
      (if decide ((n : Int) > (k : Int)) = true then
        forLoop bc (fun b A =>
          rocblas_gemm .none .transpose (m : Int) ((n : Int) - (k : Int)) (k : Int) (-1)
            w4 ((b : Int) * ((m : Int) * (k : Int))) (m : Int)
            V (load_ptr_batch shiftV b strideV + idx2D (k : Int) 0 ldv) ldv
            1 A (load_ptr_batch shiftA b strideA + idx2D 0 (k : Int) lda) lda) A0
      else A0) (load_ptr_batch shiftA b strideA + ((i : Int) + (j : Int) * lda))
      = if j < k then entryA A0 shiftA lda strideA b i j
        else entryA A0 shiftA lda strideA b i j
          - ∑ l in Finset.range k,
            w4 ((b : Int) * ((m : Int) * (k : Int)) + ((i : Int) + (l : Int) * (m : Int)))
              * entryV V shiftV ldv strideV b j l := by
    intro b i j hb hi hj
    by_cases hnk : (n : Int) > (k : Int)
    · simp only [hnk, decide_True, if_true]
      have hst := gemm_A_stage m n bc shiftA lda strideA hlda hstride 0 k
        (m : Int) ((n : Int) - (k : Int))
        (by rw [Int.toNat_natCast]; omega) (by rw [Int.toNat_sub]; omega)
        (fun b => load_ptr_batch shiftA b strideA + idx2D 0 (k : Int) lda)
        (by intro b; rw [idx2D_eq]; push_cast; ring)
        .none .transpose (k : Int) (-1 : R) 1
        w4 (fun b => (b : Int) * ((m : Int) * (k : Int))) (m : Int) V
        (fun b => load_ptr_batch shiftV b strideV + idx2D (k : Int) 0 ldv) ldv A0
      obtain ⟨h1, h2⟩ := hst
      by_cases hjk : j < k
      · rw [if_pos hjk, h2 b i j hb hi hj (by omega), entryA_eq A0]
      · rw [if_neg hjk]
        have hj2 : j = k + (j - k) := by omega
        have h3 := h1 b i (j - k) hb (by rw [Int.toNat_natCast]; exact hi)
          (by rw [Int.toNat_sub]; omega)
        rw [← hj2, Nat.zero_add] at h3
        rw [h3, Int.toNat_natCast, entryA_eq A0]
        simp only [opEntry_none, opEntry_transpose]
        have hsum : ∀ l ∈ Finset.range k,
            w4 ((b : Int) * ((m : Int) * (k : Int)) + ((i : Int) + (l : Int) * (m : Int)))
              * V (load_ptr_batch shiftV b strideV + idx2D (k : Int) 0 ldv
                + (((j - k : Nat) : Int) + (l : Int) * ldv))
            = w4 ((b : Int) * ((m : Int) * (k : Int)) + ((i : Int) + (l : Int) * (m : Int)))
              * entryV V shiftV ldv strideV b j l := by
          intro l hl
          rw [entryV_shift_row V shiftV ldv strideV b k (j - k) l (Finset.mem_range.mp hl),
            ← hj2]
        rw [Finset.sum_congr rfl hsum]
        ring
    · simp only [hnk, decide_False, if_false, Bool.false_eq_true]
      have hjk : j < k := by omega
      rw [if_pos hjk, entryA_eq A0]
  generalize (if decide ((n : Int) > (k : Int)) = true then
        forLoop bc (fun b A =>
          rocblas_gemm .none .transpose _ _ _ _ w4 _ _ V _ _ _ A _ _) A0
      else A0) = A5 at hA5 ⊢
  -- step 6: (...) * V1'
  have hw5 := trmm_stage .right .lower .transpose .unit m k bc V
    (fun b => load_ptr_batch shiftV b strideV) ldv w4 _ hw4
  generalize forLoop bc (fun b w => rocblas_trmm _ .lower _ _ _ _ _ V _ _ w _ _) w4 = w5
    at hw5 ⊢
  simp only [opEntry_transpose, triEntry_lower_unit] at hw5
  -- step 7: A1 - (...)
  obtain ⟨h1, h2⟩ := addmat_stage m n bc shiftA lda strideA hlda hstride m k le_rfl hk w5 A5
  rw [idx2D_eq]
  by_cases hjk : j < k
  · rw [h1 b i j hb hi hjk, hA5 b i j hb hi hj, if_pos hjk, hw5 b i j hb hi hjk]
  · rw [h2 b i j hb hi hj (fun h => hjk h.2), hA5 b i j hb hi hj, if_neg hjk]
    congr 1
    apply Finset.sum_congr rfl
    intro l hl
    rw [hw4 b i l hb hi (Finset.mem_range.mp hl)]

/-! ## Matrix form of the data path -/

theorem opT_apply {k : Nat} (trans : rocsolver_operation) (e : Nat → Nat → R) (i l : Fin k) :
    opT trans (Matrix.of fun (a c : Fin k) => e a c) i l = opEntry trans e i l := by
  cases trans <;> rfl

/-- Left side in matrix form: the `m × n` region of instance `b` becomes
`A - V * op(T) * Vᵗ * A`. -/
theorem larfb_data_left_matrix (trans : rocsolver_operation) (m n k bc : Nat)
    (V : Int → R) (shiftV ldv strideV : Int) (F : Int → R) (shiftF ldf strideF : Int)
    (shiftA lda strideA : Int) (A0 work0 : Int → R)
    (hk : k ≤ m) (hlda : (m : Int) ≤ lda) (hstride : bc ≤ 1 ∨ lda * (n : Int) ≤ strideA)
    (b : Nat) (hb : b < bc) (i : Fin m) (j : Fin n) :
    larfb_data .left trans (m : Int) (n : Int) (k : Int) V shiftV ldv strideV
        F shiftF ldf strideF shiftA lda strideA (bc : Int) A0 work0
        (load_ptr_batch shiftA b strideA + idx2D i j lda)
      = (matA A0 shiftA lda strideA b m n
          - matV V shiftV ldv strideV b m k * opT trans (matT F shiftF ldf strideF b k)
            * (matV V shiftV ldv strideV b m k).transpose
            * matA A0 shiftA lda strideA b m n) i j := by
  rw [larfb_data_left trans m n k bc V shiftV ldv strideV F shiftF ldf strideF shiftA lda strideA
    A0 work0 hk hlda hstride b i j hb i.2 j.2, Matrix.mul_assoc, Matrix.mul_assoc]
  simp only [Matrix.sub_apply, Matrix.mul_apply, Matrix.transpose_apply, matA, matV, matT,
    opT_apply, Matrix.of_apply, Finset.sum_range]

/-- Right side in matrix form: the `m × n` region of instance `b` becomes
`A - A * V * op(T) * Vᵗ`. -/
theorem larfb_data_right_matrix (trans : rocsolver_operation) (m n k bc : Nat)
    (V : Int → R) (shiftV ldv strideV : Int) (F : Int → R) (shiftF ldf strideF : Int)
    (shiftA lda strideA : Int) (A0 work0 : Int → R)
    (hk : k ≤ n) (hlda : (m : Int) ≤ lda) (hstride : bc ≤ 1 ∨ lda * (n : Int) ≤ strideA)
    (b : Nat) (hb : b < bc) (i : Fin m) (j : Fin n) :
    larfb_data .right trans (m : Int) (n : Int) (k : Int) V shiftV ldv strideV
        F shiftF ldf strideF shiftA lda strideA (bc : Int) A0 work0
        (load_ptr_batch shiftA b strideA + idx2D i j lda)
      = (matA A0 shiftA lda strideA b m n
          - matA A0 shiftA lda strideA b m n * matV V shiftV ldv strideV b n k
            * opT trans (matT F shiftF ldf strideF b k)
            * (matV V shiftV ldv strideV b n k).transpose) i j := by
  rw [larfb_data_right trans m n k bc V shiftV ldv strideV F shiftF ldf strideF shiftA lda
    strideA A0 work0 hk hlda hstride b i j hb i.2 j.2]
  simp only [Matrix.sub_apply, Matrix.mul_apply, Matrix.transpose_apply, matA, matV, matT,
    opT_apply, Matrix.of_apply, Finset.sum_range]

/-! ## Bookkeeping of the device state -/

theorem issue_fault (d : Device R) (op : DeviceOp) : (d.issue op).fault = d.fault := rfl

theorem touch_some_fault (d : Device R) (a : Nat) : (d.touch (some a)).fault = d.fault := by
  simp [Device.touch]

theorem hipMemcpy_some_fault (a : Nat) (d : Device R) :
    (hipMemcpy (some a) d).fault = d.fault := by
  simp [hipMemcpy, Device.touch, Device.issue]

theorem hipFree_fault (p : Option Nat) (d : Device R) : (hipFree p d).fault = d.fault := rfl

theorem hipMalloc_snd_fault (ok : Nat → Bool) (e : Int) (d : Device R) :
    (hipMalloc ok e d).2.fault = d.fault := by
  unfold hipMalloc; split <;> rfl

theorem hipMalloc_fst_ok (ok : Nat → Bool) (hok : ∀ i, ok i = true) (e : Int) (d : Device R) :
    (hipMalloc ok e d).1 = some d.mallocs := by
  unfold hipMalloc; simp [hok]

theorem forLoop_fault (N : Nat) (body : Nat → Device R → Device R)
    (h : ∀ b d, (body b d).fault = d.fault) (d : Device R) :
    (forLoop N body d).fault = d.fault :=
  forLoop_inv Device.fault N body (fun b s _ => h b s) d

theorem launch_fault (gx gy gz bx bdy : Int) (thread : Nat → Nat → Nat → Device R → Device R)
    (h : ∀ b j i d, (thread b j i d).fault = d.fault) (d : Device R) :
    (hipLaunchKernelGGL gx gy gz bx bdy thread d).fault = d.fault := by
  unfold hipLaunchKernelGGL
  apply forLoop_fault
  intro b d
  apply forLoop_fault
  intro j d
  apply forLoop_fault
  intro i d
  exact h b j i d

/-- When every allocation succeeds, a forward call hands no unset pointer to
any operation. -/
theorem template_forward_fault (mallocOk : Nat → Bool) (hok : ∀ i, mallocOk i = true)
    (side : rocsolver_side) (trans : rocsolver_operation) (m n k : Int)
    (V : Int → R) (shiftV ldv strideV : Int) (F : Int → R) (shiftF ldf strideF : Int)
    (shiftA lda strideA : Int) (batch_count : Int) (dev : Device R) :
    (rocsolver_larfb_template mallocOk side trans .forward m n k V shiftV ldv strideV
        F shiftF ldf strideF shiftA lda strideA batch_count dev).2.fault = dev.fault := by
  unfold rocsolver_larfb_template
  by_cases hq : m = 0 ∨ n = 0 ∨ batch_count = 0
  · simp only [hq, if_true]
  simp only [hq, if_false, reduceCtorEq, hipMalloc_fst_ok mallocOk hok]
  by_cases hT : (if decide (side = rocsolver_side.left) = true then decide (m > k)
      else decide (n > k)) = true
  all_goals
    simp only [hT, if_true, if_false, Bool.false_eq_true]
    repeat (first
      | rw [hipFree_fault]
      | rw [issue_fault]
      | rw [touch_some_fault]
      | rw [hipMemcpy_some_fault]
      | rw [hipMalloc_snd_fault]
      | rw [launch_fault _ _ _ _ _ _ (by intros; rfl)]
      | rw [forLoop_fault _ _ (by
          intro b d
          first
            | (simp only [issue_fault, touch_some_fault]; done)
            | (split <;> simp only [issue_fault, touch_some_fault]))])

/-! ## The forward application -/

/-- In the forward direction the routine always reports success. -/
theorem template_forward_status (mallocOk : Nat → Bool) (side : rocsolver_side)
    (trans : rocsolver_operation) (m n k : Int)
    (V : Int → R) (shiftV ldv strideV : Int) (F : Int → R) (shiftF ldf strideF : Int)
    (shiftA lda strideA : Int) (batch_count : Int) (dev : Device R) :
    (rocsolver_larfb_template mallocOk side trans .forward m n k V shiftV ldv strideV
        F shiftF ldf strideF shiftA lda strideA batch_count dev).1 = .success := by
  by_cases hq : m = 0 ∨ n = 0 ∨ batch_count = 0
  · unfold rocsolver_larfb_template
    simp only [hq, if_true]
  · exact (template_forward mallocOk side trans m n k V shiftV ldv strideV F shiftF ldf strideF
      shiftA lda strideA batch_count dev hq).1

/-- C1. Left-side forward application: when the allocations succeed, `k ≤ m`,
`lda ≥ m` and (for more than one instance) `strideA ≥ lda * n`, the call
reports success, hands no unset pointer to any operation, and leaves
`A - V * op(T) * Vᵗ * A` in the `m × n` region of every instance of `A`, with
`V` the unit lower-trapezoidal matrix read from the stored `V`, `T` the upper
triangle (diagonal included) of the stored factor, for `m > k` and for `m = k`. -/
theorem larfb_left_application (mallocOk : Nat → Bool) (hok : ∀ i, mallocOk i = true)
    (trans : rocsolver_operation) (m n k bc : Nat)
    (V : Int → R) (shiftV ldv strideV : Int) (F : Int → R) (shiftF ldf strideF : Int)
    (shiftA lda strideA : Int) (dev : Device R)
    (hk : k ≤ m) (hlda : (m : Int) ≤ lda) (hstride : bc ≤ 1 ∨ lda * (n : Int) ≤ strideA) :
    (rocsolver_larfb_template mallocOk .left trans .forward m n k V shiftV ldv strideV
        F shiftF ldf strideF shiftA lda strideA bc dev).1 = .success ∧
    (rocsolver_larfb_template mallocOk .left trans .forward m n k V shiftV ldv strideV
        F shiftF ldf strideF shiftA lda strideA bc dev).2.fault = dev.fault ∧
    ∀ b, b < bc → ∀ (i : Fin m) (j : Fin n),
      (rocsolver_larfb_template mallocOk .left trans .forward m n k V shiftV ldv strideV
          F shiftF ldf strideF shiftA lda strideA bc dev).2.A
          (load_ptr_batch shiftA b strideA + idx2D i j lda)
        = (matA dev.A shiftA lda strideA b m n
            - matV V shiftV ldv strideV b m k * opT trans (matT F shiftF ldf strideF b k)
              * (matV V shiftV ldv strideV b m k).transpose
              * matA dev.A shiftA lda strideA b m n) i j := by
  refine ⟨template_forward_status _ _ _ _ _ _ _ _ _ _ _ _ _ _ _ _ _ _ _,
    template_forward_fault mallocOk hok _ _ _ _ _ _ _ _ _ _ _ _ _ _ _ _ _ _, ?_⟩
  intro b hb i j
  have hq : ¬ ((m : Int) = 0 ∨ (n : Int) = 0 ∨ (bc : Int) = 0) := by
    have := i.2
    have := j.2
    omega
  rw [(template_forward mallocOk .left trans m n k V shiftV ldv strideV F shiftF ldf strideF
      shiftA lda strideA bc dev hq).2]
  exact larfb_data_left_matrix trans m n k bc V shiftV ldv strideV F shiftF ldf strideF
    shiftA lda strideA dev.A dev.work hk hlda hstride b hb i j

/-- C2. Right-side forward application: when the allocations succeed, `k ≤ n`,
`lda ≥ m` and (for more than one instance) `strideA ≥ lda * n`, the call
reports success, hands no unset pointer to any operation, and leaves
`A - A * V * op(T) * Vᵗ` in the `m × n` region of every instance of `A`, with
`V` the `n × k` unit lower-trapezoidal matrix read from the stored `V`, `T` the
upper triangle (diagonal included) of the stored factor, for `n > k` and for
`n = k`. -/
theorem larfb_right_application (mallocOk : Nat → Bool) (hok : ∀ i, mallocOk i = true)
    (trans : rocsolver_operation) (m n k bc : Nat)
    (V : Int → R) (shiftV ldv strideV : Int) (F : Int → R) (shiftF ldf strideF : Int)
    (shiftA lda strideA : Int) (dev : Device R)
    (hk : k ≤ n) (hlda : (m : Int) ≤ lda) (hstride : bc ≤ 1 ∨ lda * (n : Int) ≤ strideA) :
    (rocsolver_larfb_template mallocOk .right trans .forward m n k V shiftV ldv strideV
        F shiftF ldf strideF shiftA lda strideA bc dev).1 = .success ∧
    (rocsolver_larfb_template mallocOk .right trans .forward m n k V shiftV ldv strideV
        F shiftF ldf strideF shiftA lda strideA bc dev).2.fault = dev.fault ∧
    ∀ b, b < bc → ∀ (i : Fin m) (j : Fin n),
      (rocsolver_larfb_template mallocOk .right trans .forward m n k V shiftV ldv strideV
          F shiftF ldf strideF shiftA lda strideA bc dev).2.A
          (load_ptr_batch shiftA b strideA + idx2D i j lda)
        = (matA dev.A shiftA lda strideA b m n
            - matA dev.A shiftA lda strideA b m n * matV V shiftV ldv strideV b n k
              * opT trans (matT F shiftF ldf strideF b k)
              * (matV V shiftV ldv strideV b n k).transpose) i j := by
  refine ⟨template_forward_status _ _ _ _ _ _ _ _ _ _ _ _ _ _ _ _ _ _ _,
    template_forward_fault mallocOk hok _ _ _ _ _ _ _ _ _ _ _ _ _ _ _ _ _ _, ?_⟩
  intro b hb i j
  have hq : ¬ ((m : Int) = 0 ∨ (n : Int) = 0 ∨ (bc : Int) = 0) := by
    have := i.2
    have := j.2
    omega
  rw [(template_forward mallocOk .right trans m n k V shiftV ldv strideV F shiftF ldf strideF
      shiftA lda strideA bc dev hq).2]
  exact larfb_data_right_matrix trans m n k bc V shiftV ldv strideV F shiftF ldf strideF
    shiftA lda strideA dev.A dev.work hk hlda hstride b hb i j

/-! ## Exit paths: quick return, backward direction, allocation -/

/-- The quick return leaves the device state alone. -/
theorem template_quick {mallocOk : Nat → Bool} {side : rocsolver_side}
    {trans : rocsolver_operation} {direct : rocsolver_direct} {m n k : Int}
    {V : Int → R} {shiftV ldv strideV : Int} {F : Int → R} {shiftF ldf strideF : Int}
    {shiftA lda strideA : Int} {batch_count : Int} {dev : Device R}
    (h : m = 0 ∨ n = 0 ∨ batch_count = 0) :
    rocsolver_larfb_template mallocOk side trans direct m n k V shiftV ldv strideV
        F shiftF ldf strideF shiftA lda strideA batch_count dev = (.success, dev) := by
  unfold rocsolver_larfb_template
  simp only [h, if_true]

/-- C3. Quick return: with `m == 0`, `n == 0` or `batch_count == 0`, whatever
the other arguments, the call returns success and the device state is the one
it was entered with: nothing is issued (no allocation, copy, launch or BLAS
call), nothing is allocated, and `A` is unchanged (`V` and the factor are inputs
the routine has no way to write). -/
theorem larfb_quick_return (mallocOk : Nat → Bool) (side : rocsolver_side)
    (trans : rocsolver_operation) (direct : rocsolver_direct) (m n k : Int)
    (V : Int → R) (shiftV ldv strideV : Int) (F : Int → R) (shiftF ldf strideF : Int)
    (shiftA lda strideA : Int) (batch_count : Int) (dev : Device R)
    (h : m = 0 ∨ n = 0 ∨ batch_count = 0) :
    rocsolver_larfb_template mallocOk side trans direct m n k V shiftV ldv strideV
        F shiftF ldf strideF shiftA lda strideA batch_count dev = (.success, dev) :=
  template_quick h

/-- The backward direction, past the quick return: status, buffer of `A` and
issued operations. -/
theorem template_backward (mallocOk : Nat → Bool) (side : rocsolver_side)
    (trans : rocsolver_operation) (m n k : Int)
    (V : Int → R) (shiftV ldv strideV : Int) (F : Int → R) (shiftF ldf strideF : Int)
    (shiftA lda strideA : Int) (batch_count : Int) (dev : Device R)
    (hq : ¬ (m = 0 ∨ n = 0 ∨ batch_count = 0)) :
    (rocsolver_larfb_template mallocOk side trans .backward m n k V shiftV ldv strideV
        F shiftF ldf strideF shiftA lda strideA batch_count dev).1 = .not_implemented ∧
    (rocsolver_larfb_template mallocOk side trans .backward m n k V shiftV ldv strideV
        F shiftF ldf strideF shiftA lda strideA batch_count dev).2.A = dev.A ∧
    (rocsolver_larfb_template mallocOk side trans .backward m n k V shiftV ldv strideV
        F shiftF ldf strideF shiftA lda strideA batch_count dev).2.issued
      = dev.issued ++ [.hipMalloc 1, .hipMemcpy, .hipMalloc 1, .hipMemcpy] := by
  unfold rocsolver_larfb_template
  simp only [hq, if_false, if_true, true_and]
  refine ⟨?_, ?_⟩
  · rw [hipMemcpy_A, hipMalloc_snd_A, hipMemcpy_A, hipMalloc_snd_A]
  · have hm : ∀ (e : Int) (d : Device R),
        (hipMalloc mallocOk e d).2.issued = d.issued ++ [.hipMalloc e] := by
      intro e d
      unfold hipMalloc
      split <;> rfl
    have hc : ∀ (p : Option Nat) (d : Device R),
        (hipMemcpy p d).issued = d.issued ++ [.hipMemcpy] := fun _ _ => rfl
    rw [hc, hm, hc, hm]
    simp only [List.append_assoc, List.singleton_append, List.cons_append, List.nil_append]

/-- C4. Backward direction: with `m`, `n` and `batch_count` all non-zero the call
returns `not_implemented`, issues two allocations and two copies and nothing
else (no kernel launch, no BLAS call), and leaves `A` unchanged; in the forward
direction the status is never `not_implemented`. -/
theorem larfb_backward_rejected (mallocOk : Nat → Bool) (side : rocsolver_side)
    (trans : rocsolver_operation) (m n k : Int)
    (V : Int → R) (shiftV ldv strideV : Int) (F : Int → R) (shiftF ldf strideF : Int)
    (shiftA lda strideA : Int) (batch_count : Int) (dev : Device R) :
    (m ≠ 0 → n ≠ 0 → batch_count ≠ 0 →
      (rocsolver_larfb_template mallocOk side trans .backward m n k V shiftV ldv strideV
          F shiftF ldf strideF shiftA lda strideA batch_count dev).1 = .not_implemented ∧
      (rocsolver_larfb_template mallocOk side trans .backward m n k V shiftV ldv strideV
          F shiftF ldf strideF shiftA lda strideA batch_count dev).2.A = dev.A ∧
      (rocsolver_larfb_template mallocOk side trans .backward m n k V shiftV ldv strideV
          F shiftF ldf strideF shiftA lda strideA batch_count dev).2.issued
        = dev.issued ++ [.hipMalloc 1, .hipMemcpy, .hipMalloc 1, .hipMemcpy] ∧
      (∀ op ∈ [DeviceOp.hipMalloc 1, .hipMemcpy, .hipMalloc 1, .hipMemcpy],
        op.isCompute = false)) ∧
    (rocsolver_larfb_template mallocOk side trans .forward m n k V shiftV ldv strideV
        F shiftF ldf strideF shiftA lda strideA batch_count dev).1 ≠ .not_implemented := by
  constructor
  · intro hm hn hb
    have hq : ¬ (m = 0 ∨ n = 0 ∨ batch_count = 0) := by
      rintro (h | h | h)
      · exact hm h
      · exact hn h
      · exact hb h
    obtain ⟨h1, h2, h3⟩ := template_backward mallocOk side trans m n k V shiftV ldv strideV
      F shiftF ldf strideF shiftA lda strideA batch_count dev hq
    refine ⟨h1, h2, h3, ?_⟩
    intro op hop
    simp only [List.mem_cons, List.mem_singleton, List.not_mem_nil, or_false] at hop
    rcases hop with h | h | h | h <;> subst h <;> rfl
  · rw [template_forward_status]
    exact fun h => rocblas_status.noConfusion h

/-- C8, as amended. The routine does not look at the outcome of its
allocations: the status it returns is the same whether they succeed or fail, and
it is never `memory_error`, only `success` or `not_implemented`. -/
theorem larfb_status_ignores_allocation (mallocOk mallocOk2 : Nat → Bool)
    (side : rocsolver_side) (trans : rocsolver_operation) (direct : rocsolver_direct)
    (m n k : Int) (V : Int → R) (shiftV ldv strideV : Int) (F : Int → R)
    (shiftF ldf strideF : Int) (shiftA lda strideA : Int) (batch_count : Int)
    (dev : Device R) :
    (rocsolver_larfb_template mallocOk side trans direct m n k V shiftV ldv strideV
        F shiftF ldf strideF shiftA lda strideA batch_count dev).1
      = (rocsolver_larfb_template mallocOk2 side trans direct m n k V shiftV ldv strideV
        F shiftF ldf strideF shiftA lda strideA batch_count dev).1 ∧
    (rocsolver_larfb_template mallocOk side trans direct m n k V shiftV ldv strideV
        F shiftF ldf strideF shiftA lda strideA batch_count dev).1 ≠ .memory_error ∧
    ((rocsolver_larfb_template mallocOk side trans direct m n k V shiftV ldv strideV
        F shiftF ldf strideF shiftA lda strideA batch_count dev).1 = .success ∨
      (rocsolver_larfb_template mallocOk side trans direct m n k V shiftV ldv strideV
        F shiftF ldf strideF shiftA lda strideA batch_count dev).1 = .not_implemented) := by
  cases direct
  · rw [template_forward_status, template_forward_status]
    exact ⟨rfl, fun h => rocblas_status.noConfusion h, Or.inl rfl⟩
  · by_cases hq : m = 0 ∨ n = 0 ∨ batch_count = 0
    · rw [template_quick hq, template_quick hq]
      exact ⟨rfl, fun h => rocblas_status.noConfusion h, Or.inl rfl⟩
    · rw [(template_backward mallocOk side trans m n k V shiftV ldv strideV
          F shiftF ldf strideF shiftA lda strideA batch_count dev hq).1,
        (template_backward mallocOk2 side trans m n k V shiftV ldv strideV
          F shiftF ldf strideF shiftA lda strideA batch_count dev hq).1]
      exact ⟨rfl, fun h => rocblas_status.noConfusion h, Or.inr rfl⟩

/-! ## Which entries of the stored factor are read -/

theorem triEntry_upper_congr (F F2 : Int → R) (offF ldf : Int) (K : Nat)
    (hF : ∀ i l : Nat, i ≤ l → l < K →
      F (offF + ((i : Int) + (l : Int) * ldf)) = F2 (offF + ((i : Int) + (l : Int) * ldf)))
    (a c : Nat) (ha : a < K) (hc : c < K) :
    triEntry .upper .non_unit F offF ldf a c = triEntry .upper .non_unit F2 offF ldf a c := by
  unfold triEntry
  by_cases h : a = c
  · subst h
    simp only [if_true]
    exact hF a a le_rfl ha
  · simp only [h, if_false]
    by_cases h2 : a < c
    · rw [if_pos h2, if_pos h2]
      exact hF a c (Nat.le_of_lt h2) hc
    · rw [if_neg h2, if_neg h2]

/-- A `rocblas_trmm` call with an upper, non-unit operand reads only the entries
on and above its diagonal. -/
theorem rocblas_trmm_upper_congr (side : rocsolver_side) (tr : rocsolver_operation)
    (m n : Int) (alpha : R) (F F2 : Int → R) (offF ldf : Int) (B : Int → R) (offB ldb : Int)
    (hF : ∀ i l : Nat, i ≤ l →
      l < (match side with
        | .left => m.toNat
        | .right => n.toNat) →
      F (offF + ((i : Int) + (l : Int) * ldf)) = F2 (offF + ((i : Int) + (l : Int) * ldf))) :
    rocblas_trmm side .upper tr .non_unit m n alpha F offF ldf B offB ldb
      = rocblas_trmm side .upper tr .non_unit m n alpha F2 offF ldf B offB ldb := by
  unfold rocblas_trmm writeBlock
  apply forLoop_congr
  intro j buf hj
  apply forLoop_congr
  intro i buf2 hi
  cases side
  · simp only at hF ⊢
    have hsum : ∀ l ∈ Finset.range m.toNat,
        opEntry tr (triEntry .upper .non_unit F offF ldf) i l
            * B (offB + ((l : Int) + (j : Int) * ldb))
          = opEntry tr (triEntry .upper .non_unit F2 offF ldf) i l
            * B (offB + ((l : Int) + (j : Int) * ldb)) := by
      intro l hl
      have hl2 := Finset.mem_range.mp hl
      congr 1
      cases tr
      · exact triEntry_upper_congr F F2 offF ldf m.toNat hF i l hi hl2
      · exact triEntry_upper_congr F F2 offF ldf m.toNat hF l i hl2 hi
    rw [Finset.sum_congr rfl hsum]
  · simp only at hF ⊢
    have hsum : ∀ l ∈ Finset.range n.toNat,
        B (offB + ((i : Int) + (l : Int) * ldb))
            * opEntry tr (triEntry .upper .non_unit F offF ldf) l j
          = B (offB + ((i : Int) + (l : Int) * ldb))
            * opEntry tr (triEntry .upper .non_unit F2 offF ldf) l j := by
      intro l hl
      have hl2 := Finset.mem_range.mp hl
      congr 1
      cases tr
      · exact triEntry_upper_congr F F2 offF ldf n.toNat hF l j hl2 hj
      · exact triEntry_upper_congr F F2 offF ldf n.toNat hF j l hj hl2
    rw [Finset.sum_congr rfl hsum]

/-- The batch loop multiplying the workspace by the stored factor depends on
the factor only through the entries on and above the diagonal. -/
theorem trmm_F_loop_congr (p q : Option Nat) (side : rocsolver_side)
    (tr : rocsolver_operation) (ldw order : Int) (one : R) (F F2 : Int → R)
    (offF : Nat → Int) (ldf : Int) (offW : Nat → Int) (N : Nat) (d : Device R)
    (hF : ∀ b, b < N → ∀ i l : Nat, i ≤ l →
      l < (match side with
        | .left => ldw.toNat
        | .right => order.toNat) →
      F (offF b + ((i : Int) + (l : Int) * ldf)) = F2 (offF b + ((i : Int) + (l : Int) * ldf))) :
    forLoop N (fun b (dev : Device R) =>
        { ((dev.touch p).touch q).issue (.trmm b) with
          work := rocblas_trmm side .upper tr .non_unit ldw order one F (offF b) ldf
            dev.work (offW b) ldw }) d
      = forLoop N (fun b (dev : Device R) =>
        { ((dev.touch p).touch q).issue (.trmm b) with
          work := rocblas_trmm side .upper tr .non_unit ldw order one F2 (offF b) ldf
            dev.work (offW b) ldw }) d := by
  apply forLoop_congr
  intro b s hb
  rw [rocblas_trmm_upper_congr side tr ldw order one F F2 (offF b) ldf s.work (offW b) ldw
    (hF b hb)]

/-- C10, as amended. The stored factor is read as an upper triangle with its
diagonal: two calls whose factors agree on and above the diagonal of each
instance end in the same device state and status, whatever lies below the
diagonal. -/
theorem larfb_factor_upper_with_diagonal (mallocOk : Nat → Bool) (side : rocsolver_side)
    (trans : rocsolver_operation) (direct : rocsolver_direct) (m n k : Int)
    (V : Int → R) (shiftV ldv strideV : Int) (F F2 : Int → R) (shiftF ldf strideF : Int)
    (shiftA lda strideA : Int) (batch_count : Int) (dev : Device R)
    (hF : ∀ b i l : Nat, (b : Int) < batch_count → i ≤ l → (l : Int) < k →
      F (load_ptr_batch shiftF b strideF + idx2D i l ldf)
        = F2 (load_ptr_batch shiftF b strideF + idx2D i l ldf)) :
    rocsolver_larfb_template mallocOk side trans direct m n k V shiftV ldv strideV
        F shiftF ldf strideF shiftA lda strideA batch_count dev
      = rocsolver_larfb_template mallocOk side trans direct m n k V shiftV ldv strideV
        F2 shiftF ldf strideF shiftA lda strideA batch_count dev := by
  by_cases hq : m = 0 ∨ n = 0 ∨ batch_count = 0
  · rw [template_quick hq, template_quick hq]
  have hF2 : ∀ b, b < batch_count.toNat → ∀ i l : Nat, i ≤ l → l < k.toNat →
      F (load_ptr_batch shiftF b strideF + ((i : Int) + (l : Int) * ldf))
        = F2 (load_ptr_batch shiftF b strideF + ((i : Int) + (l : Int) * ldf)) := by
    intro b hb i l hil hl
    have := hF b i l (by omega) hil (by omega)
    rw [idx2D_eq] at this
    exact this
  unfold rocsolver_larfb_template
  cases direct
  · cases side
    · simp only [hq, if_false, reduceCtorEq, decide_True, if_true]
      rw [trmm_F_loop_congr _ _ .left trans k n 1 F F2 _ ldf _ _ _ hF2]
    · simp only [hq, if_false, reduceCtorEq, decide_False, Bool.false_eq_true]
      rw [trmm_F_loop_congr _ _ .right trans m k 1 F F2 _ ldf _ _ _ hF2]
  · simp only [hq, if_false, if_true]

/-! ## Independence of the batch instances -/

theorem entryA_congr (A A2 : Int → R) (shiftA lda strideA : Int) (b : Nat) (m n : Nat)
    (hA : ∀ i j, i < m → j < n →
      A2 (load_ptr_batch shiftA 0 strideA + idx2D i j lda)
        = A (load_ptr_batch shiftA b strideA + idx2D i j lda))
    (i j : Nat) (hi : i < m) (hj : j < n) :
    entryA A2 shiftA lda strideA 0 i j = entryA A shiftA lda strideA b i j :=
  hA i j hi hj

theorem entryV_congr (V V2 : Int → R) (shiftV ldv strideV : Int) (b : Nat) (d k : Nat)
    (hV : ∀ i l, i < d → l < k →
      V2 (load_ptr_batch shiftV 0 strideV + idx2D i l ldv)
        = V (load_ptr_batch shiftV b strideV + idx2D i l ldv))
    (i l : Nat) (hi : i < d) (hl : l < k) :
    entryV V2 shiftV ldv strideV 0 i l = entryV V shiftV ldv strideV b i l := by
  unfold entryV
  rw [hV i l hi hl]

theorem entryT_congr (F F2 : Int → R) (shiftF ldf strideF : Int) (b : Nat) (k : Nat)
    (hF : ∀ i l, i < k → l < k →
      F2 (load_ptr_batch shiftF 0 strideF + idx2D i l ldf)
        = F (load_ptr_batch shiftF b strideF + idx2D i l ldf))
    (trans : rocsolver_operation) (i l : Nat) (hi : i < k) (hl : l < k) :
    opEntry trans (entryT F2 shiftF ldf strideF 0) i l
      = opEntry trans (entryT F shiftF ldf strideF b) i l := by
  cases trans
  · show entryT F2 shiftF ldf strideF 0 i l = entryT F shiftF ldf strideF b i l
    unfold entryT
    rw [hF i l hi hl]
  · show entryT F2 shiftF ldf strideF 0 l i = entryT F shiftF ldf strideF b l i
    unfold entryT
    rw [hF l i hl hi]

/-- C7. Batch instances are independent (strided mode, allocations succeeding,
`lda ≥ m`, `strideA ≥ lda * n`, `k` within the order of the reflector): the
value a forward call on `batch_count ≥ 1` instances leaves in entry `(i, j)` of
instance `b` of `A` is the value a call with `batch_count = 1` leaves in entry
`(i, j)` when its buffers hold, at instance 0, the data of instance `b` of `V`,
of the factor and of `A`, and anything at all elsewhere; neither call hands an
unset pointer to an operation. -/
theorem larfb_batch_instances_independent (mallocOk mallocOk2 : Nat → Bool)
    (hok : ∀ i, mallocOk i = true) (hok2 : ∀ i, mallocOk2 i = true)
    (side : rocsolver_side) (trans : rocsolver_operation) (m n k bc : Nat)
    (V V2 : Int → R) (shiftV ldv strideV : Int) (F F2 : Int → R) (shiftF ldf strideF : Int)
    (shiftA lda strideA : Int) (dev dev2 : Device R)
    (hk : k ≤ reflOrder side m n) (hlda : (m : Int) ≤ lda)
    (hstride : lda * (n : Int) ≤ strideA) (b : Nat) (hb : b < bc)
    (hV : ∀ i l, i < reflOrder side m n → l < k →
      V2 (load_ptr_batch shiftV 0 strideV + idx2D i l ldv)
        = V (load_ptr_batch shiftV b strideV + idx2D i l ldv))
    (hF : ∀ i l, i < k → l < k →
      F2 (load_ptr_batch shiftF 0 strideF + idx2D i l ldf)
        = F (load_ptr_batch shiftF b strideF + idx2D i l ldf))
    (hA : ∀ i j, i < m → j < n →
      dev2.A (load_ptr_batch shiftA 0 strideA + idx2D i j lda)
        = dev.A (load_ptr_batch shiftA b strideA + idx2D i j lda))
    (i j : Nat) (hi : i < m) (hj : j < n) :
    (rocsolver_larfb_template mallocOk side trans .forward m n k V shiftV ldv strideV
        F shiftF ldf strideF shiftA lda strideA bc dev).2.A
        (load_ptr_batch shiftA b strideA + idx2D i j lda)
      = (rocsolver_larfb_template mallocOk2 side trans .forward m n k V2 shiftV ldv strideV
        F2 shiftF ldf strideF shiftA lda strideA (1 : Nat) dev2).2.A
        (load_ptr_batch shiftA 0 strideA + idx2D i j lda) ∧
    (rocsolver_larfb_template mallocOk side trans .forward m n k V shiftV ldv strideV
        F shiftF ldf strideF shiftA lda strideA bc dev).2.fault = dev.fault ∧
    (rocsolver_larfb_template mallocOk2 side trans .forward m n k V2 shiftV ldv strideV
        F2 shiftF ldf strideF shiftA lda strideA (1 : Nat) dev2).2.fault = dev2.fault := by
  refine ⟨?_, template_forward_fault mallocOk hok _ _ _ _ _ _ _ _ _ _ _ _ _ _ _ _ _ _,
    template_forward_fault mallocOk2 hok2 _ _ _ _ _ _ _ _ _ _ _ _ _ _ _ _ _ _⟩
  have hq : ¬ ((m : Int) = 0 ∨ (n : Int) = 0 ∨ (bc : Int) = 0) := by omega
  have hq1 : ¬ ((m : Int) = 0 ∨ (n : Int) = 0 ∨ ((1 : Nat) : Int) = 0) := by omega
  rw [(template_forward mallocOk side trans m n k V shiftV ldv strideV F shiftF ldf strideF
      shiftA lda strideA bc dev hq).2,
    (template_forward mallocOk2 side trans m n k V2 shiftV ldv strideV F2 shiftF ldf strideF
      shiftA lda strideA (1 : Nat) dev2 hq1).2]
  cases side
  · have hk2 : k ≤ m := hk
    rw [larfb_data_left trans m n k bc V shiftV ldv strideV F shiftF ldf strideF shiftA lda
        strideA dev.A dev.work hk2 hlda (Or.inr hstride) b i j hb hi hj,
      larfb_data_left trans m n k 1 V2 shiftV ldv strideV F2 shiftF ldf strideF shiftA lda
        strideA dev2.A dev2.work hk2 hlda (Or.inl le_rfl) 0 i j Nat.one_pos hi hj,
      entryA_congr dev.A dev2.A shiftA lda strideA b m n hA i j hi hj]
    congr 1
    apply Finset.sum_congr rfl
    intro l hl
    have hl2 := Finset.mem_range.mp hl
    rw [entryV_congr V V2 shiftV ldv strideV b m k hV i l hi hl2]
    congr 1
    apply Finset.sum_congr rfl
    intro q hq2
    have hq3 := Finset.mem_range.mp hq2
    rw [entryT_congr F F2 shiftF ldf strideF b k hF trans l q hl2 hq3]
    congr 1
    apply Finset.sum_congr rfl
    intro p hp
    have hp2 := Finset.mem_range.mp hp
    rw [entryV_congr V V2 shiftV ldv strideV b m k hV p q hp2 hq3,
      entryA_congr dev.A dev2.A shiftA lda strideA b m n hA p j hp2 hj]
  · have hk2 : k ≤ n := hk
    rw [larfb_data_right trans m n k bc V shiftV ldv strideV F shiftF ldf strideF shiftA lda
        strideA dev.A dev.work hk2 hlda (Or.inr hstride) b i j hb hi hj,
      larfb_data_right trans m n k 1 V2 shiftV ldv strideV F2 shiftF ldf strideF shiftA lda
        strideA dev2.A dev2.work hk2 hlda (Or.inl le_rfl) 0 i j Nat.one_pos hi hj,
      entryA_congr dev.A dev2.A shiftA lda strideA b m n hA i j hi hj]
    congr 1
    apply Finset.sum_congr rfl
    intro l hl
    have hl2 := Finset.mem_range.mp hl
    rw [entryV_congr V V2 shiftV ldv strideV b n k hV j l hj hl2]
    congr 1
    apply Finset.sum_congr rfl
    intro q hq2
    have hq3 := Finset.mem_range.mp hq2
    rw [entryT_congr F F2 shiftF ldf strideF b k hF trans q l hq3 hl2]
    congr 1
    apply Finset.sum_congr rfl
    intro p hp
    have hp2 := Finset.mem_range.mp hp
    rw [entryV_congr V V2 shiftV ldv strideV b n k hV p q hp2 hq3,
      entryA_congr dev.A dev2.A shiftA lda strideA b m n hA i p hi hp2]

/-! ## Round trip -/

theorem blockReflector_transpose (V : Int → R) (shiftV ldv strideV : Int) (F : Int → R)
    (shiftF ldf strideF : Int) (b d k : Nat) :
    (blockReflector V shiftV ldv strideV F shiftF ldf strideF b d k).transpose
      = 1 - matV V shiftV ldv strideV b d k * (matT F shiftF ldf strideF b k).transpose
        * (matV V shiftV ldv strideV b d k).transpose := by
  unfold blockReflector
  rw [Matrix.transpose_sub, Matrix.transpose_one, Matrix.transpose_mul, Matrix.transpose_mul,
    Matrix.transpose_transpose, Matrix.mul_assoc]

/-- The left factor applied by a forward call: `H` for `trans = none`, `Hᵗ` for
`trans = transpose`. -/
theorem reflector_op (V : Int → R) (shiftV ldv strideV : Int) (F : Int → R)
    (shiftF ldf strideF : Int) (b d k : Nat) (trans : rocsolver_operation) :
    1 - matV V shiftV ldv strideV b d k * opT trans (matT F shiftF ldf strideF b k)
        * (matV V shiftV ldv strideV b d k).transpose
      = match trans with
        | .none => blockReflector V shiftV ldv strideV F shiftF ldf strideF b d k
        | .transpose =>
          (blockReflector V shiftV ldv strideV F shiftF ldf strideF b d k).transpose := by
  cases trans
  · rfl
  · rw [blockReflector_transpose]
    rfl

/-- Two reflector factors with different transpose flags cancel when the
reflector is orthogonal. -/
theorem reflector_cancel (V : Int → R) (shiftV ldv strideV : Int) (F : Int → R)
    (shiftF ldf strideF : Int) (b d k : Nat) (t1 t2 : rocsolver_operation) (ht : t1 ≠ t2)
    (hH : (blockReflector V shiftV ldv strideV F shiftF ldf strideF b d k).transpose
      * blockReflector V shiftV ldv strideV F shiftF ldf strideF b d k = 1) :
    (1 - matV V shiftV ldv strideV b d k * opT t2 (matT F shiftF ldf strideF b k)
        * (matV V shiftV ldv strideV b d k).transpose)
      * (1 - matV V shiftV ldv strideV b d k * opT t1 (matT F shiftF ldf strideF b k)
        * (matV V shiftV ldv strideV b d k).transpose) = 1 := by
  rw [reflector_op, reflector_op]
  cases t1 <;> cases t2
  · exact absurd rfl ht
  · exact hH
  · exact Matrix.mul_eq_one_comm.mp hH
  · exact absurd rfl ht

/-- Two left factors that cancel. -/
theorem left_round {m n : Nat} (P Q : Matrix (Fin m) (Fin m) R) (A : Matrix (Fin m) (Fin n) R)
    (h : (1 - Q) * (1 - P) = 1) : (1 - P) * A - Q * ((1 - P) * A) = A := by
  have h2 : (1 - P) * A - Q * ((1 - P) * A) = ((1 - Q) * (1 - P)) * A := by
    rw [Matrix.mul_assoc, Matrix.sub_mul 1 Q, Matrix.one_mul]
  rw [h2, h, Matrix.one_mul]

/-- Two right factors that cancel. -/
theorem right_round {m n k : Nat} (P : Matrix (Fin n) (Fin n) R)
    (V1 : Matrix (Fin n) (Fin k) R) (T2 : Matrix (Fin k) (Fin k) R)
    (V2 : Matrix (Fin k) (Fin n) R) (A : Matrix (Fin m) (Fin n) R)
    (h : (1 - P) * (1 - V1 * T2 * V2) = 1) :
    A * (1 - P) - A * (1 - P) * V1 * T2 * V2 = A := by
  have e0 : A * (1 - P) * V1 * T2 * V2 = A * ((1 - P) * (V1 * T2 * V2)) := by
    simp only [Matrix.mul_assoc]
  have e1 : (1 - P) * (1 - V1 * T2 * V2) = (1 - P) - (1 - P) * (V1 * T2 * V2) := by
    rw [Matrix.mul_sub, Matrix.mul_one]
  have e2 : A * ((1 - P) - (1 - P) * (V1 * T2 * V2))
      = A * (1 - P) - A * ((1 - P) * (V1 * T2 * V2)) := Matrix.mul_sub _ _ _
  calc A * (1 - P) - A * (1 - P) * V1 * T2 * V2
      = A * ((1 - P) * (1 - V1 * T2 * V2)) := by rw [e0, e1, e2]
    _ = A := by rw [h, Matrix.mul_one]

/-- C5. Round trip: when `I - V * T * Vᵗ` is orthogonal for every instance and
the allocations succeed, applying the routine in the forward direction from one
side with one transpose flag and then again with the other flag (none then
transpose, or transpose then none), same `V`, factor, side and shapes, returns
every entry of the `m × n` region of every instance of `A` to its original
value, exactly, and hands no unset pointer to any operation. -/
theorem larfb_round_trip (mallocOk mallocOk2 : Nat → Bool)
    (hok : ∀ i, mallocOk i = true) (hok2 : ∀ i, mallocOk2 i = true) (side : rocsolver_side)
    (t1 t2 : rocsolver_operation) (ht : t1 ≠ t2) (m n k bc : Nat)
    (V : Int → R) (shiftV ldv strideV : Int) (F : Int → R) (shiftF ldf strideF : Int)
    (shiftA lda strideA : Int) (dev : Device R)
    (hk : k ≤ reflOrder side m n) (hlda : (m : Int) ≤ lda)
    (hstride : bc ≤ 1 ∨ lda * (n : Int) ≤ strideA)
    (hH : ∀ b, b < bc →
      (blockReflector V shiftV ldv strideV F shiftF ldf strideF b (reflOrder side m n) k).transpose
        * blockReflector V shiftV ldv strideV F shiftF ldf strideF b (reflOrder side m n) k = 1)
    (b : Nat) (hb : b < bc) (i : Fin m) (j : Fin n) :
    (rocsolver_larfb_template mallocOk2 side t2 .forward m n k V shiftV ldv strideV
        F shiftF ldf strideF shiftA lda strideA bc
        (rocsolver_larfb_template mallocOk side t1 .forward m n k V shiftV ldv strideV
          F shiftF ldf strideF shiftA lda strideA bc dev).2).2.A
        (load_ptr_batch shiftA b strideA + idx2D i j lda)
      = dev.A (load_ptr_batch shiftA b strideA + idx2D i j lda) ∧
    (rocsolver_larfb_template mallocOk2 side t2 .forward m n k V shiftV ldv strideV
        F shiftF ldf strideF shiftA lda strideA bc
        (rocsolver_larfb_template mallocOk side t1 .forward m n k V shiftV ldv strideV
          F shiftF ldf strideF shiftA lda strideA bc dev).2).2.fault = dev.fault := by
  refine ⟨?_, by rw [template_forward_fault mallocOk2 hok2,
    template_forward_fault mallocOk hok]⟩
  have hq : ¬ ((m : Int) = 0 ∨ (n : Int) = 0 ∨ (bc : Int) = 0) := by
    have := i.2
    have := j.2
    omega
  rw [(template_forward mallocOk2 side t2 m n k V shiftV ldv strideV F shiftF ldf strideF
      shiftA lda strideA bc _ hq).2]
  cases side
  · have hk2 : k ≤ m := hk
    have hX : matA (rocsolver_larfb_template mallocOk .left t1 .forward m n k V shiftV ldv
          strideV F shiftF ldf strideF shiftA lda strideA bc dev).2.A shiftA lda strideA b m n
        = (1 - matV V shiftV ldv strideV b m k * opT t1 (matT F shiftF ldf strideF b k)
            * (matV V shiftV ldv strideV b m k).transpose)
          * matA dev.A shiftA lda strideA b m n := by
      ext i2 j2
      rw [Matrix.sub_mul, Matrix.one_mul]
      show (rocsolver_larfb_template mallocOk .left t1 .forward m n k V shiftV ldv
          strideV F shiftF ldf strideF shiftA lda strideA bc dev).2.A
          (load_ptr_batch shiftA b strideA + idx2D i2 j2 lda) = _
      rw [(template_forward mallocOk .left t1 m n k V shiftV ldv strideV F shiftF ldf strideF
        shiftA lda strideA bc dev hq).2]
      exact larfb_data_left_matrix t1 m n k bc V shiftV ldv strideV F shiftF ldf strideF
        shiftA lda strideA dev.A dev.work hk2 hlda hstride b hb i2 j2
    rw [larfb_data_left_matrix t2 m n k bc V shiftV ldv strideV F shiftF ldf strideF
      shiftA lda strideA _ _ hk2 hlda hstride b hb i j, hX]
    have hcancel := reflector_cancel V shiftV ldv strideV F shiftF ldf strideF b m k t1 t2 ht
      (hH b hb)
    rw [left_round _ _ _ hcancel]
    rfl
  · have hk2 : k ≤ n := hk
    have hX : matA (rocsolver_larfb_template mallocOk .right t1 .forward m n k V shiftV ldv
          strideV F shiftF ldf strideF shiftA lda strideA bc dev).2.A shiftA lda strideA b m n
        = matA dev.A shiftA lda strideA b m n
          * (1 - matV V shiftV ldv strideV b n k * opT t1 (matT F shiftF ldf strideF b k)
            * (matV V shiftV ldv strideV b n k).transpose) := by
      ext i2 j2
      rw [Matrix.mul_sub, Matrix.mul_one, ← Matrix.mul_assoc, ← Matrix.mul_assoc]
      show (rocsolver_larfb_template mallocOk .right t1 .forward m n k V shiftV ldv
          strideV F shiftF ldf strideF shiftA lda strideA bc dev).2.A
          (load_ptr_batch shiftA b strideA + idx2D i2 j2 lda) = _
      rw [(template_forward mallocOk .right t1 m n k V shiftV ldv strideV F shiftF ldf strideF
        shiftA lda strideA bc dev hq).2]
      exact larfb_data_right_matrix t1 m n k bc V shiftV ldv strideV F shiftF ldf strideF
        shiftA lda strideA dev.A dev.work hk2 hlda hstride b hb i2 j2
    rw [larfb_data_right_matrix t2 m n k bc V shiftV ldv strideV F shiftF ldf strideF
      shiftA lda strideA _ _ hk2 hlda hstride b hb i j, hX]
    have hcancel := reflector_cancel V shiftV ldv strideV F shiftF ldf strideF b n k t2 t1
      (Ne.symm ht) (hH b hb)
    rw [right_round _ _ _ _ _ hcancel]
    rfl

/-! ## Live allocations on the forward path -/

theorem issue_live (d : Device R) (op : DeviceOp) : (d.issue op).live = d.live := rfl

theorem touch_live (d : Device R) (p : Option Nat) : (d.touch p).live = d.live := rfl

theorem hipMemcpy_live (p : Option Nat) (d : Device R) : (hipMemcpy p d).live = d.live := rfl

theorem hipMemcpy_mallocs (p : Option Nat) (d : Device R) :
    (hipMemcpy p d).mallocs = d.mallocs := rfl

theorem hipFree_some_live (a : Nat) (d : Device R) :
    (hipFree (some a) d).live = d.live.erase a := rfl

theorem hipMalloc_snd_live (ok : Nat → Bool) (hok : ∀ i, ok i = true) (e : Int)
    (d : Device R) : (hipMalloc ok e d).2.live = d.mallocs :: d.live := by
  unfold hipMalloc; simp [hok, Device.issue]

theorem hipMalloc_snd_mallocs (ok : Nat → Bool) (e : Int) (d : Device R) :
    (hipMalloc ok e d).2.mallocs = d.mallocs + 1 := by
  unfold hipMalloc; split <;> rfl

theorem forLoop_live (N : Nat) (body : Nat → Device R → Device R)
    (h : ∀ b d, (body b d).live = d.live) (d : Device R) :
    (forLoop N body d).live = d.live :=
  forLoop_inv Device.live N body (fun b s _ => h b s) d

theorem launch_live (gx gy gz bx bdy : Int) (thread : Nat → Nat → Nat → Device R → Device R)
    (h : ∀ b j i d, (thread b j i d).live = d.live) (d : Device R) :
    (hipLaunchKernelGGL gx gy gz bx bdy thread d).live = d.live := by
  unfold hipLaunchKernelGGL
  apply forLoop_live
  intro b d
  apply forLoop_live
  intro j d
  apply forLoop_live
  intro i d
  exact h b j i d

/-- When every allocation succeeds, a forward call returns with the live
allocations it was entered with: the workspace and the two device constants
are freed before the normal return. -/
theorem template_forward_live (mallocOk : Nat → Bool) (hok : ∀ i, mallocOk i = true)
    (side : rocsolver_side) (trans : rocsolver_operation) (m n k : Int)
    (V : Int → R) (shiftV ldv strideV : Int) (F : Int → R) (shiftF ldf strideF : Int)
    (shiftA lda strideA : Int) (batch_count : Int) (dev : Device R) :
    (rocsolver_larfb_template mallocOk side trans .forward m n k V shiftV ldv strideV
        F shiftF ldf strideF shiftA lda strideA batch_count dev).2.live = dev.live := by
  unfold rocsolver_larfb_template
  by_cases hq : m = 0 ∨ n = 0 ∨ batch_count = 0
  · simp only [hq, if_true]
  simp only [hq, if_false, reduceCtorEq, hipMalloc_fst_ok mallocOk hok]
  by_cases hT : (if decide (side = rocsolver_side.left) = true then decide (m > k)
      else decide (n > k)) = true
  all_goals
    simp only [hT, if_true, if_false, Bool.false_eq_true]
    repeat (first
      | rw [hipFree_some_live]
      | rw [issue_live]
      | rw [touch_live]
      | rw [hipMemcpy_live]
      | rw [hipMemcpy_mallocs]
      | rw [hipMalloc_snd_live mallocOk hok]
      | rw [hipMalloc_snd_mallocs]
      | rw [launch_live _ _ _ _ _ _ (by intros; rfl)]
      | rw [forLoop_live _ _ (by
          intro b d
          first
            | rfl
            | (split <;> rfl))])
    have h1 : ¬ (dev.mallocs + 1 + 1 = dev.mallocs) := by omega
    have h2 : ¬ (dev.mallocs + 1 + 1 = dev.mallocs + 1) := by omega
    have h3 : ¬ (dev.mallocs + 1 = dev.mallocs) := by omega
    simp [List.erase_cons, h1, h2, h3]

/-! ## Frame -/

/-- Iterations that each leave alone what lies outside their own region leave
alone what lies outside all the regions. -/
theorem forLoop_frame {α : Type} (S : Nat → Int → Prop) (G : Nat → (Int → α) → (Int → α))
    (N : Nat) (hframe : ∀ t buf x, t < N → ¬ S t x → G t buf x = buf x)
    (buf : Int → α) (x : Int) (hx : ∀ t, t < N → ¬ S t x) : forLoop N G buf x = buf x := by
  induction N with
  | zero => rfl
  | succ N ih =>
    rw [forLoop_succ, hframe N _ x (Nat.lt_succ_self N) (hx N (Nat.lt_succ_self N))]
    exact ih (fun t buf x ht => hframe t buf x (Nat.lt_succ_of_lt ht))
      (fun t ht => hx t (Nat.lt_succ_of_lt ht))

/-- A block update writes nothing outside its block, whatever the leading dimension. -/
theorem writeBlock_frame (rows cols : Nat) (ld off : Int) (f : Nat → Nat → R → R)
    (buf : Int → R) (x : Int) (hx : ¬ blockAt off ld rows cols x) :
    writeBlock rows cols ld off f buf x = buf x := by
  unfold writeBlock
  apply forLoop_frame (fun j x => ∃ i : Nat, i < rows ∧ x = off + ((i : Int) + (j : Int) * ld))
  · intro j w y hj hy
    apply forLoop_frame (fun i y => y = off + ((i : Int) + (j : Int) * ld))
    · intro i w2 z _ hz
      simp only [store, if_neg hz]
    · intro i hi hyi
      exact hy ⟨i, hi, hyi⟩
  · rintro j hj ⟨i, hi, hxi⟩
    exact hx ⟨i, j, hi, hj, hxi⟩

/-- A batch loop of block updates writes nothing outside its blocks. -/
theorem batch_writeBlock_frame (rows cols : Nat) (ld : Int) (off : Nat → Int)
    (f : Nat → (Int → R) → Nat → Nat → R → R) (N : Nat) (buf : Int → R) (x : Int)
    (hx : ∀ b, b < N → ¬ blockAt (off b) ld rows cols x) :
    forLoop N (fun b buf => writeBlock rows cols ld (off b) (f b buf) buf) buf x = buf x :=
  forLoop_frame (fun b x => blockAt (off b) ld rows cols x)
    (fun b buf => writeBlock rows cols ld (off b) (f b buf) buf) N
    (fun b w y _ hy => writeBlock_frame rows cols ld (off b) (f b w) w y hy) buf x hx

/-- A sub-block of the `m × n` region lies inside the region. -/
theorem blockAt_sub (base lda : Int) (m n r0 c0 rows cols : Nat) (hr : r0 + rows ≤ m)
    (hc : c0 + cols ≤ n) (x : Int)
    (h : blockAt (base + ((r0 : Int) + (c0 : Int) * lda)) lda rows cols x) :
    blockAt base lda m n x := by
  obtain ⟨i, j, hi, hj, hx⟩ := h
  refine ⟨r0 + i, c0 + j, by omega, by omega, ?_⟩
  rw [hx]
  push_cast
  ring

/-- A batch loop of `rocblas_gemm` into a sub-block of each `m × n` region
writes nothing outside the regions. -/
theorem gemm_A_frame (m n bc : Nat) (shiftA lda strideA : Int) (r0 c0 : Nat) (M Nn : Int)
    (hr : r0 + M.toNat ≤ m) (hc : c0 + Nn.toNat ≤ n) (off : Nat → Int)
    (hoff : ∀ b, off b = load_ptr_batch shiftA b strideA + ((r0 : Int) + (c0 : Int) * lda))
    (tA tB : rocsolver_operation) (K : Int) (alpha beta : R)
    (X : Int → R) (offX : Nat → Int) (ldx : Int) (Y : Int → R) (offY : Nat → Int) (ldy : Int)
    (A : Int → R) (x : Int)
    (hx : ∀ b, b < bc → ¬ blockAt (load_ptr_batch shiftA b strideA) lda m n x) :
    forLoop bc (fun b a =>
        rocblas_gemm tA tB M Nn K alpha X (offX b) ldx Y (offY b) ldy beta a (off b) lda) A x
      = A x := by
  unfold rocblas_gemm
  apply batch_writeBlock_frame M.toNat Nn.toNat lda off
    (fun b _ i j c =>
      alpha * (∑ l in Finset.range K.toNat,
          opEntry tA (fun i l => X (offX b + ((i : Int) + (l : Int) * ldx))) i l
            * opEntry tB (fun l j => Y (offY b + ((l : Int) + (j : Int) * ldy))) l j)
        + beta * c)
  intro b hb hblock
  rw [hoff] at hblock
  exact hx b hb (blockAt_sub _ lda m n r0 c0 _ _ hr hc x hblock)

/-- The launch of `addmatA1` on the leading `rows × cols` block of each `m × n`
region writes nothing outside the regions. -/
theorem addmat_frame (m n bc : Nat) (shiftA lda strideA : Int) (rows cols : Nat)
    (hr : rows ≤ m) (hc : cols ≤ n) (w A : Int → R) (x : Int)
    (hx : ∀ b, b < bc → ¬ blockAt (load_ptr_batch shiftA b strideA) lda m n x) :
    hipLaunchKernelGGL (((cols : Int) - 1).tdiv 32 + 1) (((rows : Int) - 1).tdiv 32 + 1)
        (bc : Int) 32 32
        (fun b j i a => addmatA1 (rows : Int) (cols : Int) a shiftA lda strideA w b j i) A x
      = A x := by
  rw [launch_addmatA1]
  apply batch_writeBlock_frame rows cols lda (fun b => load_ptr_batch shiftA b strideA)
    (fun b _ i j c => c - w ((b : Int) * ((rows : Int) * (cols : Int))
              + ((i : Int) + (j : Int) * (rows : Int))))
  intro b hb hblock
  apply hx b hb
  apply blockAt_sub _ lda m n 0 0 rows cols (by omega) (by omega) x
  have h0 : load_ptr_batch shiftA b strideA + (((0 : Nat) : Int) + ((0 : Nat) : Int) * lda)
      = load_ptr_batch shiftA b strideA := by
    push_cast
    ring
  rw [h0]
  exact hblock

/-- The data path writes nothing outside the `m × n` regions of the instances. -/
theorem larfb_data_frame (side : rocsolver_side) (trans : rocsolver_operation)
    (m n k bc : Nat) (V : Int → R) (shiftV ldv strideV : Int) (F : Int → R)
    (shiftF ldf strideF : Int) (shiftA lda strideA : Int) (A0 work0 : Int → R)
    (hk : k ≤ reflOrder side m n) (x : Int)
    (hx : ∀ b, b < bc → ¬ blockAt (load_ptr_batch shiftA b strideA) lda m n x) :
    larfb_data side trans (m : Int) (n : Int) (k : Int) V shiftV ldv strideV
        F shiftF ldf strideF shiftA lda strideA (bc : Int) A0 work0 x = A0 x := by
  unfold larfb_data
  cases side
  · have hk2 : k ≤ m := hk
    simp only [decide_True, if_true, Int.toNat_natCast]
    rw [addmat_frame m n bc shiftA lda strideA k n hk2 le_rfl _ _ x hx]
    by_cases hmk : (m : Int) > (k : Int)
    · simp only [hmk, decide_True, if_true]
      exact gemm_A_frame m n bc shiftA lda strideA k 0 ((m : Int) - (k : Int)) (n : Int)
        (by rw [Int.toNat_sub]; omega) (by rw [Int.toNat_natCast]; omega)
        (fun b => load_ptr_batch shiftA b strideA + idx2D (k : Int) 0 lda)
        (by intro b; rw [idx2D_eq]; push_cast; ring)
        _ _ _ _ _ _ _ _ _ _ _ A0 x hx
    · simp only [hmk, decide_False, if_false, Bool.false_eq_true]
  · have hk2 : k ≤ n := hk
    simp only [reduceCtorEq, decide_False, Bool.false_eq_true, if_false, Int.toNat_natCast]
    rw [addmat_frame m n bc shiftA lda strideA m k le_rfl hk2 _ _ x hx]
    by_cases hnk : (n : Int) > (k : Int)
    · simp only [hnk, decide_True, if_true]
      exact gemm_A_frame m n bc shiftA lda strideA 0 k (m : Int) ((n : Int) - (k : Int))
        (by rw [Int.toNat_natCast]; omega) (by rw [Int.toNat_sub]; omega)
        (fun b => load_ptr_batch shiftA b strideA + idx2D 0 (k : Int) lda)
        (by intro b; rw [idx2D_eq]; push_cast; ring)
        _ _ _ _ _ _ _ _ _ _ _ A0 x hx
    · simp only [hnk, decide_False, if_false, Bool.false_eq_true]

/-- A forward call writes nothing outside the `m × n` regions of the instances. -/
theorem template_forward_frame (mallocOk : Nat → Bool) (side : rocsolver_side)
    (trans : rocsolver_operation) (m n k bc : Nat)
    (V : Int → R) (shiftV ldv strideV : Int) (F : Int → R) (shiftF ldf strideF : Int)
    (shiftA lda strideA : Int) (dev : Device R)
    (hk : k ≤ reflOrder side m n) (x : Int)
    (hx : ∀ b, b < bc → ¬ blockAt (load_ptr_batch shiftA b strideA) lda m n x) :
    (rocsolver_larfb_template mallocOk side trans .forward m n k V shiftV ldv strideV
        F shiftF ldf strideF shiftA lda strideA bc dev).2.A x = dev.A x := by
  by_cases hq : (m : Int) = 0 ∨ (n : Int) = 0 ∨ (bc : Int) = 0
  · rw [template_quick hq]
  · rw [(template_forward mallocOk side trans m n k V shiftV ldv strideV F shiftF ldf strideF
        shiftA lda strideA bc dev hq).2]
    exact larfb_data_frame side trans m n k bc V shiftV ldv strideV F shiftF ldf strideF
      shiftA lda strideA dev.A dev.work hk x hx

/-- Under the stride invariant the padding rows of an instance lie outside
every region. -/
theorem padding_not_in_region (m n bc : Nat) (shiftA lda strideA : Int)
    (hlda : (m : Int) ≤ lda) (hstride : bc ≤ 1 ∨ lda * (n : Int) ≤ strideA)
    (b i j : Nat) (hb : b < bc) (hmi : m ≤ i) (hi : (i : Int) < lda) (hj : j < n)
    (b2 : Nat) (hb2 : b2 < bc) :
    ¬ blockAt (load_ptr_batch shiftA b2 strideA) lda m n
      (load_ptr_batch shiftA b strideA + idx2D i j lda) := by
  rintro ⟨i2, j2, hi2, hj2, hx⟩
  rw [idx2D_eq] at hx
  have hl : ((lda.toNat : Nat) : Int) = lda := Int.toNat_of_nonneg (by omega)
  have := A_addr_inj lda.toNat n bc shiftA lda strideA (by omega) hstride b b2 i i2 j j2 hb hb2
    (by omega) hj (by omega) hj2 hx
  omega

/-- Under the stride invariant what follows column `n - 1` of an instance, up
to the start of the next instance if there is one, lies outside every region. -/
theorem past_columns_not_in_region (m n bc : Nat) (shiftA lda strideA : Int)
    (hlda : (m : Int) ≤ lda) (hstride : bc ≤ 1 ∨ lda * (n : Int) ≤ strideA)
    (b : Nat) (r : Int) (hb : b < bc) (hr : lda * (n : Int) ≤ r)
    (hnext : b + 1 < bc → r < strideA) (b2 : Nat) (hb2 : b2 < bc) :
    ¬ blockAt (load_ptr_batch shiftA b2 strideA) lda m n
      (load_ptr_batch shiftA b strideA + r) := by
  rintro ⟨i2, j2, hi2, hj2, hx⟩
  unfold load_ptr_batch at hx
  obtain ⟨h3, h4⟩ := block_offset_lt lda m n i2 j2 hlda hi2 hj2
  rcases Nat.lt_trichotomy b b2 with h | h | h
  · have hs : lda * (n : Int) ≤ strideA := by
      rcases hstride with hs | hs
      · omega
      · exact hs
    have hr2 : r < strideA := hnext (by omega)
    have h5 : ((b : Int) + 1) * strideA ≤ (b2 : Int) * strideA := by
      apply mul_le_mul_of_nonneg_right _ (by omega)
      exact_mod_cast h
    nlinarith
  · subst h
    omega
  · have hs : lda * (n : Int) ≤ strideA := by
      rcases hstride with hs | hs
      · omega
      · exact hs
    have h5 : ((b2 : Int) + 1) * strideA ≤ (b : Int) * strideA := by
      apply mul_le_mul_of_nonneg_right _ (by omega)
      exact_mod_cast h
    nlinarith

/-- C11. Frame of a forward call whose allocations succeed, with `lda ≥ m` and
`k ≤ m` (left) or `k ≤ n` (right): every element of the buffer of `A` that is
not an element `i + j * lda`, `i < m`, `j < n`, of the target region of some
instance keeps its value, and no unset pointer is handed to an operation.  Under
the stride invariant this covers the padding rows `m .. lda - 1` of every
instance and everything from column `n` of an instance on, up to the start of
the next instance when there is one.  `V` and the factor are read-only inputs
of the routine: only `A` and the workspace the call allocates and frees itself
are ever stored to. -/
theorem larfb_frame (mallocOk : Nat → Bool) (hok : ∀ i, mallocOk i = true)
    (side : rocsolver_side) (trans : rocsolver_operation) (m n k bc : Nat)
    (V : Int → R) (shiftV ldv strideV : Int) (F : Int → R) (shiftF ldf strideF : Int)
    (shiftA lda strideA : Int) (dev : Device R)
    (hk : k ≤ reflOrder side m n) (hlda : (m : Int) ≤ lda) :
    (∀ x, (∀ b, b < bc → ¬ blockAt (load_ptr_batch shiftA b strideA) lda m n x) →
      (rocsolver_larfb_template mallocOk side trans .forward m n k V shiftV ldv strideV
          F shiftF ldf strideF shiftA lda strideA bc dev).2.A x = dev.A x) ∧
    (rocsolver_larfb_template mallocOk side trans .forward m n k V shiftV ldv strideV
        F shiftF ldf strideF shiftA lda strideA bc dev).2.fault = dev.fault ∧
    ((bc ≤ 1 ∨ lda * (n : Int) ≤ strideA) →
      (∀ b i j : Nat, b < bc → m ≤ i → (i : Int) < lda → j < n →
        (rocsolver_larfb_template mallocOk side trans .forward m n k V shiftV ldv strideV
            F shiftF ldf strideF shiftA lda strideA bc dev).2.A
            (load_ptr_batch shiftA b strideA + idx2D i j lda)
          = dev.A (load_ptr_batch shiftA b strideA + idx2D i j lda)) ∧
      (∀ (b : Nat) (r : Int), b < bc → lda * (n : Int) ≤ r → (b + 1 < bc → r < strideA) →
        (rocsolver_larfb_template mallocOk side trans .forward m n k V shiftV ldv strideV
            F shiftF ldf strideF shiftA lda strideA bc dev).2.A
            (load_ptr_batch shiftA b strideA + r)
          = dev.A (load_ptr_batch shiftA b strideA + r))) := by
  refine ⟨?_, template_forward_fault mallocOk hok _ _ _ _ _ _ _ _ _ _ _ _ _ _ _ _ _ _, ?_⟩
  · intro x hx
    exact template_forward_frame mallocOk side trans m n k bc V shiftV ldv strideV
      F shiftF ldf strideF shiftA lda strideA dev hk x hx
  · intro hstride
    constructor
    · intro b i j hb hmi hi hj
      exact template_forward_frame mallocOk side trans m n k bc V shiftV ldv strideV
        F shiftF ldf strideF shiftA lda strideA dev hk _
        (fun b2 hb2 => padding_not_in_region m n bc shiftA lda strideA hlda hstride b i j hb
          hmi hi hj b2 hb2)
    · intro b r hb hr hnext
      exact template_forward_frame mallocOk side trans m n k bc V shiftV ldv strideV
        F shiftF ldf strideF shiftA lda strideA dev hk _
        (fun b2 hb2 => past_columns_not_in_region m n bc shiftA lda strideA hlda hstride b r
          hb hr hnext b2 hb2)

end Numeric

/-! ## Concrete instances -/

/-- Witness of C1: `m = 2`, `n = 1`, `k = 1`, one instance, `V = (1, 1)ᵗ`,
`T = (1)`, `A = (3, 5)ᵗ`; the call leaves `(-5, -3)ᵗ`. -/
theorem larfb_left_application_witness :
    (∀ i : Nat, (fun _ : Nat => true) i = true) ∧ (1 : Nat) ≤ 2 ∧ ((2 : Nat) : Int) ≤ 2 ∧
    ((1 : Nat) ≤ 1 ∨ (2 : Int) * ((1 : Nat) : Int) ≤ 2) ∧
    (rocsolver_larfb_template (fun _ => true) .left .none .forward (2 : Nat) (1 : Nat) (1 : Nat)
        sampleV 0 2 2 sampleF 0 1 1 0 2 2 (1 : Nat) sampleDevice).2.A
        (load_ptr_batch 0 0 2 + idx2D ((0 : Fin 2) : Nat) ((0 : Fin 1) : Nat) 2) = -5 ∧
    (rocsolver_larfb_template (fun _ => true) .left .none .forward (2 : Nat) (1 : Nat) (1 : Nat)
        sampleV 0 2 2 sampleF 0 1 1 0 2 2 (1 : Nat) sampleDevice).2.A
        (load_ptr_batch 0 0 2 + idx2D ((1 : Fin 2) : Nat) ((0 : Fin 1) : Nat) 2) = -3 :=
  ⟨fun _ => rfl, by decide, by decide, by decide,
    ((larfb_left_application (fun _ => true) (fun _ => rfl) .none 2 1 1 1
      sampleV 0 2 2 sampleF 0 1 1 0 2 2 sampleDevice (by decide) (by decide) (by decide)).2.2
      0 (by decide) 0 0).trans (by decide),
    ((larfb_left_application (fun _ => true) (fun _ => rfl) .none 2 1 1 1
      sampleV 0 2 2 sampleF 0 1 1 0 2 2 sampleDevice (by decide) (by decide) (by decide)).2.2
      0 (by decide) 1 0).trans (by decide)⟩

/-- Witness of C2: `m = 1`, `n = 2`, `k = 1`, one instance, `V = (1, 1)ᵗ`,
`T = (1)`, `A = (3, 5)`; the call leaves `(-5, -3)`. -/
theorem larfb_right_application_witness :
    (∀ i : Nat, (fun _ : Nat => true) i = true) ∧ (1 : Nat) ≤ 2 ∧ ((1 : Nat) : Int) ≤ 1 ∧
    ((1 : Nat) ≤ 1 ∨ (1 : Int) * ((2 : Nat) : Int) ≤ 2) ∧
    (rocsolver_larfb_template (fun _ => true) .right .none .forward (1 : Nat) (2 : Nat) (1 : Nat)
        sampleV 0 2 2 sampleF 0 1 1 0 1 2 (1 : Nat) sampleDevice).2.A
        (load_ptr_batch 0 0 2 + idx2D ((0 : Fin 1) : Nat) ((0 : Fin 2) : Nat) 1) = -5 ∧
    (rocsolver_larfb_template (fun _ => true) .right .none .forward (1 : Nat) (2 : Nat) (1 : Nat)
        sampleV 0 2 2 sampleF 0 1 1 0 1 2 (1 : Nat) sampleDevice).2.A
        (load_ptr_batch 0 0 2 + idx2D ((0 : Fin 1) : Nat) ((1 : Fin 2) : Nat) 1) = -3 :=
  ⟨fun _ => rfl, by decide, by decide, by decide,
    ((larfb_right_application (fun _ => true) (fun _ => rfl) .none 1 2 1 1
      sampleV 0 2 2 sampleF 0 1 1 0 1 2 sampleDevice (by decide) (by decide) (by decide)).2.2
      0 (by decide) 0 0).trans (by decide),
    ((larfb_right_application (fun _ => true) (fun _ => rfl) .none 1 2 1 1
      sampleV 0 2 2 sampleF 0 1 1 0 1 2 sampleDevice (by decide) (by decide) (by decide)).2.2
      0 (by decide) 0 1).trans (by decide)⟩

/-- Witness of C3: a backward call with `m = 0`. -/
theorem larfb_quick_return_witness :
    ((0 : Int) = 0 ∨ (5 : Int) = 0 ∨ (3 : Int) = 0) ∧
    rocsolver_larfb_template (fun _ => false) .left .none .backward 0 5 2
        sampleV 0 1 1 sampleF 0 2 4 0 1 5 3 sampleDevice = (.success, sampleDevice) :=
  ⟨Or.inl rfl, larfb_quick_return (fun _ => false) .left .none .backward 0 5 2
    sampleV 0 1 1 sampleF 0 2 4 0 1 5 3 sampleDevice (Or.inl rfl)⟩

/-- Witness of C4: a backward call with `m = n = batch_count = 1`. -/
theorem larfb_backward_rejected_witness :
    (1 : Int) ≠ 0 ∧
    (rocsolver_larfb_template (fun _ => true) .left .none .backward 1 1 1
        sampleV 0 1 1 sampleF 0 1 1 0 1 1 1 sampleDevice).1 = .not_implemented ∧
    (rocsolver_larfb_template (fun _ => true) .left .none .backward 1 1 1
        sampleV 0 1 1 sampleF 0 1 1 0 1 1 1 sampleDevice).2.A = sampleDevice.A :=
  ⟨by decide,
    ((larfb_backward_rejected (fun _ => true) .left .none 1 1 1
      sampleV 0 1 1 sampleF 0 1 1 0 1 1 1 sampleDevice).1 (by decide) (by decide) (by decide)).1,
    ((larfb_backward_rejected (fun _ => true) .left .none 1 1 1
      sampleV 0 1 1 sampleF 0 1 1 0 1 1 1 sampleDevice).1 (by decide) (by decide)
        (by decide)).2.1⟩

set_option maxRecDepth 1000000 in
/-- Counterexample to C8: with every allocation failing, a forward call with
`m = n = k = batch_count = 1` still returns success, not `memory_error`, after
issuing its kernel launches and BLAS calls with unset pointers. -/
theorem larfb_alloc_failure_counterexample :
    (rocsolver_larfb_template (fun _ => false) .left .none .forward 1 1 1
        sampleV 0 1 1 sampleF 0 1 1 0 1 1 1 sampleDevice).1 = .success ∧
    (rocsolver_larfb_template (fun _ => false) .left .none .forward 1 1 1
        sampleV 0 1 1 sampleF 0 1 1 0 1 1 1 sampleDevice).2.issued.any DeviceOp.isCompute
      = true ∧
    (rocsolver_larfb_template (fun _ => false) .left .none .forward 1 1 1
        sampleV 0 1 1 sampleF 0 1 1 0 1 1 1 sampleDevice).2.fault = true := by
  decide

/-- C9, at the failing input. A backward call with `m = n = batch_count = 1` on a
device with no live allocation returns `not_implemented` with the two device
constants still allocated; the same call in the forward direction returns with
no live allocation. -/
theorem larfb_backward_leaks :
    sampleDevice.live = [] ∧
    (rocsolver_larfb_template (fun _ => true) .left .none .backward 1 1 1
        sampleV 0 1 1 sampleF 0 1 1 0 1 1 1 sampleDevice).1 = .not_implemented ∧
    (rocsolver_larfb_template (fun _ => true) .left .none .backward 1 1 1
        sampleV 0 1 1 sampleF 0 1 1 0 1 1 1 sampleDevice).2.live = [1, 0] := by
  decide

/-- Witness of C10 as amended: two factors of order 2 that differ only below
the diagonal. -/
theorem larfb_factor_upper_with_diagonal_witness :
    (∀ b i l : Nat, (b : Int) < 1 → i ≤ l → (l : Int) < 2 →
      sampleF (load_ptr_batch 0 b 4 + idx2D i l 2)
        = sampleFlow (load_ptr_batch 0 b 4 + idx2D i l 2)) ∧
    rocsolver_larfb_template (fun _ => true) .left .none .forward 2 1 2
        sampleV 0 2 4 sampleF 0 2 4 0 2 2 1 sampleDevice
      = rocsolver_larfb_template (fun _ => true) .left .none .forward 2 1 2
        sampleV 0 2 4 sampleFlow 0 2 4 0 2 2 1 sampleDevice :=
  have h : ∀ b i l : Nat, (b : Int) < 1 → i ≤ l → (l : Int) < 2 →
      sampleF (load_ptr_batch 0 b 4 + idx2D i l 2)
        = sampleFlow (load_ptr_batch 0 b 4 + idx2D i l 2) := by
    intro b i l hb hil hl
    have hb0 : b = 0 := by omega
    subst hb0
    have hcases : (i = 0 ∧ l = 0) ∨ (i = 0 ∧ l = 1) ∨ (i = 1 ∧ l = 1) := by omega
    rcases hcases with ⟨h1, h2⟩ | ⟨h1, h2⟩ | ⟨h1, h2⟩ <;> subst h1 <;> subst h2 <;> decide
  ⟨h, larfb_factor_upper_with_diagonal (fun _ => true) .left .none .forward 2 1 2
    sampleV 0 2 4 sampleF sampleFlow 0 2 4 0 2 2 1 sampleDevice h⟩

set_option maxRecDepth 1000000 in
/-- Counterexample to C10: two factors of order 2 that agree strictly above the
diagonal (entry `(0, 1)` is 1 in both) and differ on it (0 against 1) leave
different values in `A`: `(-2, 0)ᵗ` against `(-10, -13)ᵗ` from `A = (3, 5)ᵗ`. -/
theorem larfb_factor_strictly_upper_counterexample :
    (∀ i l : Nat, i < l → l < 2 →
      sampleFdiag (load_ptr_batch 0 0 4 + idx2D i l 2)
        = sampleF (load_ptr_batch 0 0 4 + idx2D i l 2)) ∧
    (rocsolver_larfb_template (fun _ => true) .left .none .forward 2 1 2
        sampleV 0 2 4 sampleFdiag 0 2 4 0 2 2 1 sampleDevice).2.A 0 = -2 ∧
    (rocsolver_larfb_template (fun _ => true) .left .none .forward 2 1 2
        sampleV 0 2 4 sampleF 0 2 4 0 2 2 1 sampleDevice).2.A 0 = -10 := by
  refine ⟨?_, by decide, by decide⟩
  intro i l hil hl
  have hcases : i = 0 ∧ l = 1 := by omega
  obtain ⟨h1, h2⟩ := hcases
  subst h1
  subst h2
  decide

/-- The sample reflector `I - v vᵗ` with `v = (1, 1)ᵗ` is orthogonal. -/
theorem sample_reflector_orthogonal (b : Nat) (hb : b < 1) :
    (blockReflector sampleV 0 2 2 sampleF 0 1 1 b (reflOrder .left 2 1) 1).transpose
      * blockReflector sampleV 0 2 2 sampleF 0 1 1 b (reflOrder .left 2 1) 1 = 1 := by
  have hb0 : b = 0 := by omega
  subst hb0
  decide

/-- Witness of C5: the orthogonal reflector `I - v vᵗ`, `v = (1, 1)ᵗ`, applied
from the left to `A = (3, 5)ᵗ` with `trans = none` and then `trans = transpose`. -/
theorem larfb_round_trip_witness :
    rocsolver_operation.none ≠ rocsolver_operation.transpose ∧
    (1 : Nat) ≤ reflOrder .left 2 1 ∧ ((2 : Nat) : Int) ≤ 2 ∧
    (∀ b, b < 1 →
      (blockReflector sampleV 0 2 2 sampleF 0 1 1 b (reflOrder .left 2 1) 1).transpose
        * blockReflector sampleV 0 2 2 sampleF 0 1 1 b (reflOrder .left 2 1) 1 = 1) ∧
    (rocsolver_larfb_template (fun _ => true) .left .transpose .forward
        (2 : Nat) (1 : Nat) (1 : Nat) sampleV 0 2 2 sampleF 0 1 1 0 2 2 (1 : Nat)
        (rocsolver_larfb_template (fun _ => true) .left .none .forward
          (2 : Nat) (1 : Nat) (1 : Nat) sampleV 0 2 2 sampleF 0 1 1 0 2 2 (1 : Nat)
          sampleDevice).2).2.A
        (load_ptr_batch 0 0 2 + idx2D ((1 : Fin 2) : Nat) ((0 : Fin 1) : Nat) 2)
      = sampleDevice.A
        (load_ptr_batch 0 0 2 + idx2D ((1 : Fin 2) : Nat) ((0 : Fin 1) : Nat) 2) :=
  ⟨by decide, by decide, by decide, sample_reflector_orthogonal,
    (larfb_round_trip (fun _ => true) (fun _ => true) (fun _ => rfl) (fun _ => rfl)
      .left .none .transpose (by decide)
      2 1 1 1 sampleV 0 2 2 sampleF 0 1 1 0 2 2 sampleDevice (by decide) (by decide)
      (Or.inl le_rfl) sample_reflector_orthogonal 0 (by decide) 1 0).1⟩

/-- Witness of C7: instance 1 of a batch of two (`m = 2`, `n = 1`, `k = 1`,
strides 2, 2 and 1) against a single-instance call on the views of instance 1. -/
theorem larfb_batch_instances_independent_witness :
    (1 : Nat) ≤ reflOrder .left 2 1 ∧ ((2 : Nat) : Int) ≤ 2 ∧
    (2 : Int) * ((1 : Nat) : Int) ≤ 2 ∧ (1 : Nat) < 2 ∧
    (rocsolver_larfb_template (fun _ => true) .left .none .forward
        (2 : Nat) (1 : Nat) (1 : Nat) sampleV 0 2 2 sampleF 0 1 1 0 2 2 (2 : Nat)
        sampleDevice).2.A (load_ptr_batch 0 1 2 + idx2D (0 : Nat) (0 : Nat) 2)
      = (rocsolver_larfb_template (fun _ => true) .left .none .forward
        (2 : Nat) (1 : Nat) (1 : Nat) (instanceView sampleV 1 2) 0 2 2
        (instanceView sampleF 1 1) 0 1 1 0 2 2 (1 : Nat)
        sampleDeviceView).2.A (load_ptr_batch 0 0 2 + idx2D (0 : Nat) (0 : Nat) 2) :=
  ⟨by decide, by decide, by decide, by decide,
    (larfb_batch_instances_independent (fun _ => true) (fun _ => true) (fun _ => rfl)
      (fun _ => rfl) .left .none 2 1 1 2
      sampleV (instanceView sampleV 1 2) 0 2 2 sampleF (instanceView sampleF 1 1) 0 1 1 0 2 2
      sampleDevice sampleDeviceView (by decide) (by decide) (by decide) 1 (by decide)
      (by intro i l _ _; unfold instanceView load_ptr_batch; congr 1; ring)
      (by intro i l _ _; unfold instanceView load_ptr_batch; congr 1; ring)
      (by intro i j _ _
          show instanceView sampleA 1 2 (load_ptr_batch 0 0 2 + idx2D (i : Int) (j : Int) 2)
            = sampleA (load_ptr_batch 0 1 2 + idx2D (i : Int) (j : Int) 2)
          unfold instanceView load_ptr_batch; congr 1; ring)
      0 0 (by decide) (by decide)).1⟩

/-! ## The status contract of the batched LU entry points -/

/-- C6. Status of the batched LU entry points (getf2 and getrf, any element
type): success for `M ≥ 0`, `N ≥ 0`, `lda ≥ max(1, M)`, zero sizes included;
`invalid_size` for negative `M`, negative `N` or `lda < max(1, M)`; no other
status.  The test accepts only success at `M = 0`, `lda = 1`, `N = 20`, and only
success or `invalid_size` at `M = -1`, `lda = 1`; the modelled status passes the
test for every parameter combination the test file lists. -/
theorem lu_batched_status_contract (T : Type) (getrf : Bool) (arg : Arguments) :
    (0 ≤ arg.M → 0 ≤ arg.N → max 1 arg.M ≤ arg.lda →
      testing_getf2_getrf_batched T getrf arg = .success) ∧
    (arg.M < 0 ∨ arg.N < 0 ∨ arg.lda < max 1 arg.M →
      testing_getf2_getrf_batched T getrf arg = .invalid_size) ∧
    (testing_getf2_getrf_batched T getrf arg = .success ∨
      testing_getf2_getrf_batched T getrf arg = .invalid_size) ∧
    (∀ st, LUfact_b_passes (setup_arguments_b (0, 1) (20, 0)) st = true ↔ st = .success) ∧
    (∀ ns st, LUfact_b_passes (setup_arguments_b (-1, 1) ns) st = true ↔
      (st = .success ∨ st = .invalid_size)) ∧
    (∀ ms ∈ matrix_size_range, ∀ ns ∈ n_size_range,
      LUfact_b_passes (setup_arguments_b ms ns)
        (testing_getf2_getrf_batched T getrf (setup_arguments_b ms ns)) = true) ∧
    (∀ ms ∈ large_matrix_size_range, ∀ ns ∈ large_n_size_range,
      LUfact_b_passes (setup_arguments_b ms ns)
        (testing_getf2_getrf_batched T getrf (setup_arguments_b ms ns)) = true) := by
  refine ⟨?_, ?_, ?_, ?_, ?_, ?_, ?_⟩
  · intro hM hN hlda
    unfold testing_getf2_getrf_batched
    rw [if_neg]
    rintro (h | h | h) <;> omega
  · intro h
    unfold testing_getf2_getrf_batched
    rw [if_pos h]
  · unfold testing_getf2_getrf_batched
    split
    · exact Or.inr rfl
    · exact Or.inl rfl
  · intro st
    cases st <;> decide
  · intro ns st
    cases st <;> simp [LUfact_b_passes, setup_arguments_b]
  · unfold testing_getf2_getrf_batched
    decide
  · unfold testing_getf2_getrf_batched
    decide

/-- Witness of C6: the two test points named in the claim. -/
theorem lu_batched_status_contract_witness :
    testing_getf2_getrf_batched Int false (setup_arguments_b (0, 1) (20, 0)) = .success ∧
    testing_getf2_getrf_batched Int true (setup_arguments_b (-1, 1) (20, 0)) = .invalid_size :=
  ⟨(lu_batched_status_contract Int false (setup_arguments_b (0, 1) (20, 0))).1
      (by decide) (by decide) (by decide),
    (lu_batched_status_contract Int true (setup_arguments_b (-1, 1) (20, 0))).2.1
      (Or.inl (by decide))⟩

/-- The reading of sections 4.6 and 8 (`M < 1` yields `invalid_size`) fails the
test at `M = 0`, `lda = 1`, `N = 20`. -/
theorem quick_return_reading_fails_test :
    batched_driver_quick_return (setup_arguments_b (0, 1) (20, 0)) = .invalid_size ∧
    LUfact_b_passes (setup_arguments_b (0, 1) (20, 0))
      (batched_driver_quick_return (setup_arguments_b (0, 1) (20, 0))) = false := by
  decide

/-- Witness of C11: two instances with `m = n = k = 1`, `lda = 2`, `strideA = 2`;
the padding cell (row 1, column 0) of instance 0 keeps its value. -/
theorem larfb_frame_witness :
    (∀ i : Nat, (fun _ : Nat => true) i = true) ∧
    (1 : Nat) ≤ reflOrder .left 1 1 ∧ ((1 : Nat) : Int) ≤ 2 ∧
    (2 : Int) * ((1 : Nat) : Int) ≤ 2 ∧
    (rocsolver_larfb_template (fun _ => true) .left .none .forward
        (1 : Nat) (1 : Nat) (1 : Nat) sampleV 0 2 2 sampleF 0 1 1 0 2 2 (2 : Nat)
        sampleDevice).2.A (load_ptr_batch 0 0 2 + idx2D (1 : Nat) (0 : Nat) 2)
      = sampleDevice.A (load_ptr_batch 0 0 2 + idx2D (1 : Nat) (0 : Nat) 2) :=
  ⟨fun _ => rfl, by decide, by decide, by decide,
    ((larfb_frame (fun _ => true) (fun _ => rfl) .left .none 1 1 1 2
      sampleV 0 2 2 sampleF 0 1 1 0 2 2 sampleDevice (by decide) (by decide)).2.2
        (Or.inr (by decide))).1 0 1 0 (by decide) (by decide) (by decide) (by decide)⟩

end RocSolver
